import Mathlib

/-!
# Security policy marshalling (`pkg/securitypolicy/securitypolicy_marshal.go`)

A shallow embedding of the policy serializer: the Rego text generation
(`marshalRego` and the `write*`/`add*` helpers over a `strings.Builder`), the
custom JSON marshalling that adds the `length` field, and the entry points
`MarshalPolicy` / `MarshalFragment` with the marshaller registry. A second
part models the fragment trust gate of the spec.

Conventions of the embedding:
* a Go `string` is a Lean `String` (the text is taken to be valid UTF-8); a
  slice is a `List`; a `*T` that the code dereferences is a `T`;
* a `*strings.Builder` is the text written so far, passed in and returned;
* a Go result `(string, error)` is a pair `String × Option error`, so that the
  document returned next to an error stays visible;
* `fmt.Sprintf` is modelled for the verbs the package uses (`%s`, `%v`, `%t`,
  `%d`), with the format strings kept as in the source.
-/

namespace securitypolicy

/-! ## Library functions used by the package -/

/-- An operand of `fmt.Sprintf`: the package passes strings, booleans and
integers (`syscall.Signal` is an integer type, printed with `%d`). -/
inductive fmt.Arg
  | string (s : String)
  | bool (b : Bool)
  | int (n : Int)
  deriving DecidableEq, Repr

/-- Go prints a boolean as `true` or `false`. -/
def fmt.formatBool (b : Bool) : String :=
  if b then "true" else "false"

/-- The text one verb produces for one operand. `%s`/`%v` print a string as it
is (no quoting, no escaping), `%t`/`%v` print a boolean, `%d`/`%v` print an
integer in decimal; any other pairing gives the bad-verb form
`%!verb(type=value)` of package fmt. -/
def fmt.formatArg (verb : Char) (a : fmt.Arg) : String :=
  match a with
  | .string s =>
    if verb = 's' ∨ verb = 'v' then s
    else "%!" ++ verb.toString ++ "(string=" ++ s ++ ")"
  | .bool b =>
    if verb = 't' ∨ verb = 'v' then fmt.formatBool b
    else "%!" ++ verb.toString ++ "(bool=" ++ fmt.formatBool b ++ ")"
  | .int n =>
    if verb = 'd' ∨ verb = 'v' then toString n
    else "%!" ++ verb.toString ++ "(int=" ++ toString n ++ ")"

/-- The scan of a format string: text is copied, `%%` is a percent sign, a verb
consumes the next operand (`%!v(MISSING)` when none is left). -/
def fmt.sprintfChars : List Char → List fmt.Arg → List Char
  | '%' :: '%' :: rest, args => '%' :: fmt.sprintfChars rest args
  | '%' :: v :: rest, a :: args => (fmt.formatArg v a).data ++ fmt.sprintfChars rest args
  | '%' :: v :: rest, [] => "%!".data ++ v :: "(MISSING)".data ++ fmt.sprintfChars rest []
  | c :: rest, args => c :: fmt.sprintfChars rest args
  | [], _ => []

/-- Model of `fmt.Sprintf(format, args...)`. -/
def fmt.Sprintf (format : String) (args : List fmt.Arg) : String :=
  ⟨fmt.sprintfChars format.data args⟩

/-- Model of `strings.Join(elems, sep)`. -/
def strings.Join : List String → String → String
  | [], _ => ""
  | [a], _ => a
  | a :: b :: rest, sep => a ++ sep ++ strings.Join (b :: rest) sep

/-- Replaces the first occurrence of `old` in a text by `new`; the text is
returned as it is when `old` does not occur. -/
def strings.replaceFirstChars (old new : List Char) : List Char → List Char
  | [] => if old.isEmpty then new else []
  | c :: cs =>
    if old.isPrefixOf (c :: cs) then new ++ (c :: cs).drop old.length
    else c :: strings.replaceFirstChars old new cs

/-- Model of `strings.Replace(s, old, new, 1)`: only the first occurrence is
replaced. -/
def strings.Replace1 (s old new : String) : String :=
  ⟨strings.replaceFirstChars old.data new.data s.data⟩

/-! ## Types of the Rego marshalling

The declarations are in other files of the package; the fields are the ones
the marshalling code reads, with the type its verb requires. -/

/-- One environment variable rule (`Strategy` is of the string type
`EnvVarRule`). -/
structure EnvRuleConfig where
  Strategy : String
  Rule : String
  Required : Bool
  deriving DecidableEq, Repr

/-- A mount constraint in internal form. -/
structure mountInternal where
  Source : String
  Destination : String
  Type_ : String
  Options : List String
  deriving DecidableEq, Repr

/-- A process that may be executed inside a container. -/
structure containerExecProcess where
  Command : List String
  Signals : List Int
  deriving DecidableEq, Repr

/-- A container in internal form. -/
structure securityPolicyContainer where
  Command : List String
  EnvRules : List EnvRuleConfig
  Layers : List String
  Mounts : List mountInternal
  ExecProcesses : List containerExecProcess
  Signals : List Int
  AllowElevated : Bool
  WorkingDir : String
  AllowStdioAccess : Bool
  deriving DecidableEq, Repr

/-- A process started outside of any container. -/
structure externalProcess where
  command : List String
  envRules : List EnvRuleConfig
  workingDir : String
  allowStdioAccess : Bool
  deriving DecidableEq, Repr

/-- A fragment descriptor. -/
structure fragment where
  issuer : String
  feed : String
  minimumSVN : String
  includes : List String
  deriving DecidableEq, Repr

/-- The policy in internal form, as rendered to Rego. -/
structure securityPolicyInternal where
  Containers : List securityPolicyContainer
  ExternalProcesses : List externalProcess
  Fragments : List fragment
  AllowPropertiesAccess : Bool
  AllowDumpStacks : Bool
  AllowRuntimeLogging : Bool
  AllowEnvironmentVariableDropping : Bool
  AllowUnencryptedScratch : Bool
  deriving DecidableEq, Repr

/-- A policy fragment in internal form, as rendered to Rego. -/
structure securityPolicyFragment where
  Namespace : String
  SVN : String
  Containers : List securityPolicyContainer
  ExternalProcesses : List externalProcess
  Fragments : List fragment
  deriving DecidableEq, Repr

/-! ## Marshalling for creating Rego policy code -/

/-- The indentation unit. -/
def indentUsing : String := "    "

/-- Rego array literal of a list of strings (`stringArray.marshalRego`). -/
def stringArray.marshalRego (array : List String) : String :=
  let values := array.map (fun value => fmt.Sprintf "\"%s\"" [.string value])
  fmt.Sprintf "[%s]" [.string (strings.Join values ",")]

/-- Rego array literal of a list of signals (`signalArray.marshalRego`). -/
def signalArray.marshalRego (array : List Int) : String :=
  let values := array.map (fun value => fmt.Sprintf "%d" [.int value])
  fmt.Sprintf "[%s]" [.string (strings.Join values ",")]

/-- Appends one formatted line and a newline to the builder. -/
def writeLine (builder : String) (format : String) (args : List fmt.Arg) : String :=
  builder ++ (fmt.Sprintf format args ++ "\n")

/-- Writes the `"command"` line of a container. -/
def writeCommand (builder : String) (command : List String) (indent : String) : String :=
  let array := stringArray.marshalRego command
  writeLine builder "%s\"command\": %s," [.string indent, .string array]

/-- Rego object literal of one env rule. -/
def EnvRuleConfig.marshalRego (e : EnvRuleConfig) : String :=
  fmt.Sprintf "\x7b\"pattern\": \"%s\", \"strategy\": \"%s\", \"required\": %v\x7d"
    [.string e.Rule, .string e.Strategy, .bool e.Required]

/-- Rego array literal of a list of env rules (`envRuleArray.marshalRego`). -/
def envRuleArray.marshalRego (array : List EnvRuleConfig) : String :=
  let values := array.map (fun env => env.marshalRego)
  fmt.Sprintf "[%s]" [.string (strings.Join values ",")]

/-- Writes the `"env_rules"` line of a container. -/
def writeEnvRules (builder : String) (envRules : List EnvRuleConfig) (indent : String) : String :=
  writeLine builder "%s\"env_rules\": %s," [.string indent, .string (envRuleArray.marshalRego envRules)]

/-- Writes the `"layers"` line of a container. -/
def writeLayers (builder : String) (layers : List String) (indent : String) : String :=
  writeLine builder "%s\"layers\": %s," [.string indent, .string (stringArray.marshalRego layers)]

/-- Rego object literal of one mount. -/
def mountInternal.marshalRego (m : mountInternal) : String :=
  let options := stringArray.marshalRego m.Options
  fmt.Sprintf "\x7b\"destination\": \"%s\", \"options\": %s, \"source\": \"%s\", \"type\": \"%s\"\x7d"
    [.string m.Destination, .string options, .string m.Source, .string m.Type_]

/-- Writes the `"mounts"` line of a container. -/
def writeMounts (builder : String) (mounts : List mountInternal) (indent : String) : String :=
  let values := mounts.map (fun mount => mount.marshalRego)
  writeLine builder "%s\"mounts\": [%s]," [.string indent, .string (strings.Join values ",")]

/-- Rego object literal of one exec process. -/
def containerExecProcess.marshalRego (p : containerExecProcess) : String :=
  let command := stringArray.marshalRego p.Command
  let signals := signalArray.marshalRego p.Signals
  fmt.Sprintf "\x7b\"command\": %s, \"signals\": %s\x7d" [.string command, .string signals]

/-- Writes the `"exec_processes"` line of a container. -/
def writeExecProcesses (builder : String) (execProcesses : List containerExecProcess)
    (indent : String) : String :=
  let values := execProcesses.map (fun process => process.marshalRego)
  writeLine builder "%s\"exec_processes\": [%s]," [.string indent, .string (strings.Join values ",")]

/-- Writes the `"signals"` line of a container. -/
def writeSignals (builder : String) (signals : List Int) (indent : String) : String :=
  let array := signalArray.marshalRego signals
  writeLine builder "%s\"signals\": %s," [.string indent, .string array]

/-- Writes the block of one container. -/
def writeContainer (builder : String) (container : securityPolicyContainer)
    (indent : String) : String :=
  let builder := writeLine builder "%s\x7b" [.string indent]
  let builder := writeCommand builder container.Command (indent ++ indentUsing)
  let builder := writeEnvRules builder container.EnvRules (indent ++ indentUsing)
  let builder := writeLayers builder container.Layers (indent ++ indentUsing)
  let builder := writeMounts builder container.Mounts (indent ++ indentUsing)
  let builder := writeExecProcesses builder container.ExecProcesses (indent ++ indentUsing)
  let builder := writeSignals builder container.Signals (indent ++ indentUsing)
  let builder := writeLine builder "%s\"allow_elevated\": %v,"
    [.string (indent ++ indentUsing), .bool container.AllowElevated]
  let builder := writeLine builder "%s\"working_dir\": \"%s\","
    [.string (indent ++ indentUsing), .string container.WorkingDir]
  let builder := writeLine builder "%s\"allow_stdio_access\": %t"
    [.string (indent ++ indentUsing), .bool container.AllowStdioAccess]
  writeLine builder "%s\x7d," [.string indent]

/-- Writes the `containers` section; nothing for an empty list. -/
def addContainers (builder : String) (containers : List securityPolicyContainer) : String :=
  if containers.length = 0 then builder
  else
    let builder := writeLine builder "containers := [" []
    let builder := containers.foldl (fun b container => writeContainer b container indentUsing) builder
    writeLine builder "]" []

/-- Rego object literal of one external process. -/
def externalProcess.marshalRego (p : externalProcess) : String :=
  let command := stringArray.marshalRego p.command
  let envRules := envRuleArray.marshalRego p.envRules
  fmt.Sprintf
    "\x7b\"command\": %s, \"env_rules\": %s, \"working_dir\": \"%s\", \"allow_stdio_access\": %t\x7d"
    [.string command, .string envRules, .string p.workingDir, .bool p.allowStdioAccess]

/-- Writes the `external_processes` section; nothing for an empty list. -/
def addExternalProcesses (builder : String) (processes : List externalProcess) : String :=
  if processes.length = 0 then builder
  else
    let builder := writeLine builder "external_processes := [" []
    let builder := processes.foldl
      (fun b process => writeLine b "%s%s," [.string indentUsing, .string process.marshalRego]) builder
    writeLine builder "]" []

/-- Rego object literal of one fragment descriptor. -/
def fragment.marshalRego (f : fragment) : String :=
  let includes := stringArray.marshalRego f.includes
  fmt.Sprintf "\x7b\"issuer\": \"%s\", \"feed\": \"%s\", \"minimum_svn\": \"%s\", \"includes\": %s\x7d"
    [.string f.issuer, .string f.feed, .string f.minimumSVN, .string includes]

/-- Writes the `fragments` section; nothing for an empty list. -/
def addFragments (builder : String) (fragments : List fragment) : String :=
  if fragments.length = 0 then builder
  else
    let builder := writeLine builder "fragments := [" []
    let builder := fragments.foldl
      (fun b fragment => writeLine b "%s%s," [.string indentUsing, .string fragment.marshalRego]) builder
    writeLine builder "]" []

/-- The block generated for a policy: the three sections and the five toggle
lines. -/
def securityPolicyInternal.objects (p : securityPolicyInternal) : String :=
  let builder := ""
  let builder := addFragments builder p.Fragments
  let builder := addContainers builder p.Containers
  let builder := addExternalProcesses builder p.ExternalProcesses
  let builder := writeLine builder "allow_properties_access := %v" [.bool p.AllowPropertiesAccess]
  let builder := writeLine builder "allow_dump_stacks := %v" [.bool p.AllowDumpStacks]
  let builder := writeLine builder "allow_runtime_logging := %v" [.bool p.AllowRuntimeLogging]
  let builder := writeLine builder "allow_environment_variable_dropping := %v"
    [.bool p.AllowEnvironmentVariableDropping]
  writeLine builder "allow_unencrypted_scratch := %t" [.bool p.AllowUnencryptedScratch]

/-- Rego document of a policy: the generated block substituted for the first
`##OBJECTS##` of the template (the embedded file `policy.rego`, a parameter
here). -/
def securityPolicyInternal.marshalRego (policyRegoTemplate : String)
    (p : securityPolicyInternal) : String :=
  strings.Replace1 policyRegoTemplate "##OBJECTS##" p.objects

/-- Rego document of a policy fragment. -/
def securityPolicyFragment.marshalRego (p : securityPolicyFragment) : String :=
  let builder := ""
  let builder := addFragments builder p.Fragments
  let builder := addContainers builder p.Containers
  let builder := addExternalProcesses builder p.ExternalProcesses
  fmt.Sprintf "package %s\n\nsvn := \"%s\"\n\n%s" [.string p.Namespace, .string p.SVN, .string builder]

/-! ## Types of the policy handed to the marshallers

These declarations are in other files of the package. The collection types
are the ones whose `MarshalJSON` is defined here: each has an `Elements` map
next to its own `Length`. -/

/-- A Go `map[string]α`: `nil`, or its entries (one pair per key). -/
inductive GoMap (α : Type)
  | nil
  | entries (kvs : List (String × α))
  deriving DecidableEq, Repr

/-- Go `len(m)`: the number of entries, 0 for the nil map. -/
def GoMap.len {α : Type} : GoMap α → Nat
  | .nil => 0
  | .entries kvs => kvs.length

/-- The values of a map, in the order its entries are listed. -/
def GoMap.values {α : Type} : GoMap α → List α
  | .nil => []
  | .entries kvs => kvs.map (fun kv => kv.2)

/-- A string collection with its element count. -/
structure StringArrayMap where
  Length : Int
  Elements : GoMap String
  deriving DecidableEq, Repr

/-- Go `type CommandArgs StringArrayMap`. -/
structure CommandArgs where
  Length : Int
  Elements : GoMap String
  deriving DecidableEq, Repr

/-- Go `type Layers StringArrayMap`. -/
structure Layers where
  Length : Int
  Elements : GoMap String
  deriving DecidableEq, Repr

/-- Go `type Options StringArrayMap`. -/
structure Options where
  Length : Int
  Elements : GoMap String
  deriving DecidableEq, Repr

/-- The conversion `StringArrayMap(c)` of a `CommandArgs`. -/
def CommandArgs.toStringArrayMap (c : CommandArgs) : StringArrayMap :=
  { Length := c.Length, Elements := c.Elements }

/-- The conversion `StringArrayMap(l)` of a `Layers`. -/
def Layers.toStringArrayMap (l : Layers) : StringArrayMap :=
  { Length := l.Length, Elements := l.Elements }

/-- The conversion `StringArrayMap(o)` of an `Options`. -/
def Options.toStringArrayMap (o : Options) : StringArrayMap :=
  { Length := o.Length, Elements := o.Elements }

/-- The env rules of a container. -/
structure EnvRules where
  Length : Int
  Elements : GoMap EnvRuleConfig
  deriving DecidableEq, Repr

/-- A mount constraint of a container. -/
structure Mount where
  Source : String
  Destination : String
  Type_ : String
  Options : Options
  deriving DecidableEq, Repr

/-- The mounts of a container. -/
structure Mounts where
  Length : Int
  Elements : GoMap Mount
  deriving DecidableEq, Repr

/-- A process that may be executed inside a container (not part of the JSON
encoding). -/
structure ExecProcessConfig where
  Command : List String
  Signals : List Int
  deriving DecidableEq, Repr

/-- A container of the policy. -/
structure Container where
  Command : CommandArgs
  EnvRules : EnvRules
  Layers : Layers
  WorkingDir : String
  Mounts : Mounts
  AllowElevated : Bool
  ExecProcesses : List ExecProcessConfig
  Signals : List Int
  AllowStdioAccess : Bool
  deriving DecidableEq, Repr

/-- The containers of a policy. -/
structure Containers where
  Length : Int
  Elements : GoMap Container
  deriving DecidableEq, Repr

/-- The policy of the JSON encoding. -/
structure SecurityPolicy where
  AllowAll : Bool
  Containers : Containers
  deriving DecidableEq, Repr

/-- Configuration of an external process. -/
structure ExternalProcessConfig where
  Command : List String
  EnvRules : List EnvRuleConfig
  WorkingDir : String
  AllowStdioAccess : Bool
  deriving DecidableEq, Repr

/-- Configuration of a fragment. -/
structure FragmentConfig where
  Issuer : String
  Feed : String
  MinimumSVN : String
  Includes : List String
  deriving DecidableEq, Repr

/-- Go `error` values of the package: the sentinel `ErrInvalidOpenDoorPolicy`,
the value `fmt.Errorf("unknown marshaller: %q", marshaller)` (kept as its
operand, the name that `%q` prints in quotes), and an error returned by a
constructor of another file (kept as its text). -/
inductive error
  | ErrInvalidOpenDoorPolicy
  | unknownMarshaller (marshaller : String)
  | other (text : String)
  deriving DecidableEq, Repr

/-! ## Model of `encoding/json` for these types -/

/-- The hexadecimal digit of a number below 16. -/
def json.hexDigit (n : Nat) : Char :=
  "0123456789abcdef".data.getD n '0'

/-- The escape `\uXXXX` of a code point. -/
def json.unicodeEscape (n : Nat) : List Char :=
  ['\\', 'u', json.hexDigit (n / 4096 % 16), json.hexDigit (n / 256 % 16),
    json.hexDigit (n / 16 % 16), json.hexDigit (n % 16)]

/-- The encoding of one character inside a JSON string (HTML-safe, as
`json.Marshal` does). -/
def json.escapeChar (c : Char) : List Char :=
  if c = '"' then ['\\', '"']
  else if c = '\\' then ['\\', '\\']
  else if c = '\n' then ['\\', 'n']
  else if c = '\r' then ['\\', 'r']
  else if c = '\t' then ['\\', 't']
  else if c.toNat < 32 ∨ c = '<' ∨ c = '>' ∨ c = '&' ∨ c.toNat = 8232 ∨ c.toNat = 8233 then
    json.unicodeEscape c.toNat
  else [c]

/-- The JSON encoding of a string. -/
def json.encodeString (s : String) : String :=
  ⟨'"' :: (s.data.flatMap json.escapeChar ++ ['"'])⟩

/-- The JSON encoding of a boolean. -/
def json.encodeBool (b : Bool) : String :=
  if b then "true" else "false"

/-- The JSON encoding of an integer. -/
def json.encodeInt (n : Int) : String :=
  toString n

/-- Inserts an entry into a key-sorted list of entries. -/
def json.insertByKey {α : Type} (kv : String × α) : List (String × α) → List (String × α)
  | [] => [kv]
  | x :: xs => if kv.1 < x.1 then kv :: x :: xs else x :: json.insertByKey kv xs

/-- The entries sorted by key, the order in which `encoding/json` writes a map. -/
def json.sortByKey {α : Type} (kvs : List (String × α)) : List (String × α) :=
  kvs.foldr json.insertByKey []

/-- The JSON encoding of a map with string keys: `null` for the nil map,
otherwise an object with the keys in sorted order. -/
def json.encodeMap {α : Type} (encode : α → String) : GoMap α → String
  | .nil => "null"
  | .entries kvs =>
    "\x7b" ++ strings.Join ((json.sortByKey kvs).map
      (fun kv => json.encodeString kv.1 ++ ":" ++ encode kv.2)) "," ++ "\x7d"

/-- A field of a struct as the encoder sees it: its JSON name, how deep it is
embedded (0 for a field of the struct itself), whether the name comes from a
tag, and its encoded value. -/
structure json.field where
  name : String
  depth : Nat
  tagged : Bool
  value : String
  deriving DecidableEq, Repr

/-- Go's rule for fields of the same JSON name: the shallower field wins, and
at equal depth a tagged field wins over an untagged one. -/
def json.field.dominates (f g : json.field) : Bool :=
  decide (f.depth < g.depth) || (f.depth == g.depth && f.tagged && !g.tagged)

/-- The field at position `i` is encoded when it dominates every other field
of its name. -/
def json.field.visible (fields : List json.field) (i : Nat) (f : json.field) : Bool :=
  fields.enum.all (fun jg => jg.1 == i || jg.2.name != f.name || f.dominates jg.2)

/-- The fields that are encoded, in declaration order. -/
def json.dominantFields (fields : List json.field) : List json.field :=
  (fields.enum.filter (fun jf => json.field.visible fields jf.1 jf.2)).map (fun jf => jf.2)

/-- The JSON encoding of a struct from its fields. -/
def json.encodeStruct (fields : List json.field) : String :=
  "\x7b" ++ strings.Join ((json.dominantFields fields).map
    (fun f => json.encodeString f.name ++ ":" ++ f.value)) "," ++ "\x7d"

/-! ## Custom JSON marshalling

Each `MarshalJSON` encodes an anonymous struct that holds a new field
`Length` tagged `length`, set to `len(Elements)`, and embeds the value itself
through an alias type without methods. -/

/-- The fields of the anonymous struct: the added `Length` at depth 0, then the
fields of the embedded alias at depth 1. -/
def lengthWrapper (len : Nat) (ownLength : Int) (elements : String) : List json.field :=
  [{ name := "length", depth := 0, tagged := true, value := json.encodeInt len },
   { name := "length", depth := 1, tagged := true, value := json.encodeInt ownLength },
   { name := "elements", depth := 1, tagged := true, value := elements }]

/-- Encoding of a `StringArrayMap`. -/
def StringArrayMap.MarshalJSON (s : StringArrayMap) : String :=
  json.encodeStruct (lengthWrapper s.Elements.len s.Length
    (json.encodeMap json.encodeString s.Elements))

/-- Encoding of a `CommandArgs`. -/
def CommandArgs.MarshalJSON (c : CommandArgs) : String :=
  c.toStringArrayMap.MarshalJSON

/-- Encoding of a `Layers`. -/
def Layers.MarshalJSON (l : Layers) : String :=
  l.toStringArrayMap.MarshalJSON

/-- Encoding of an `Options`. -/
def Options.MarshalJSON (o : Options) : String :=
  o.toStringArrayMap.MarshalJSON

/-- Encoding of an env rule, field for field. -/
def EnvRuleConfig.encodeJSON (e : EnvRuleConfig) : String :=
  json.encodeStruct
    [{ name := "strategy", depth := 0, tagged := true, value := json.encodeString e.Strategy },
     { name := "rule", depth := 0, tagged := true, value := json.encodeString e.Rule },
     { name := "required", depth := 0, tagged := true, value := json.encodeBool e.Required }]

/-- Encoding of an `EnvRules`. -/
def EnvRules.MarshalJSON (e : EnvRules) : String :=
  json.encodeStruct (lengthWrapper e.Elements.len e.Length
    (json.encodeMap EnvRuleConfig.encodeJSON e.Elements))

/-- Encoding of a mount, field for field. -/
def Mount.encodeJSON (m : Mount) : String :=
  json.encodeStruct
    [{ name := "source", depth := 0, tagged := true, value := json.encodeString m.Source },
     { name := "destination", depth := 0, tagged := true, value := json.encodeString m.Destination },
     { name := "type", depth := 0, tagged := true, value := json.encodeString m.Type_ },
     { name := "options", depth := 0, tagged := true, value := m.Options.MarshalJSON }]

/-- Encoding of a `Mounts`. -/
def Mounts.MarshalJSON (m : Mounts) : String :=
  json.encodeStruct (lengthWrapper m.Elements.len m.Length
    (json.encodeMap Mount.encodeJSON m.Elements))

/-- Encoding of a container, field for field (exec processes, signals and the
stdio flag are not part of the JSON encoding). -/
def Container.encodeJSON (c : Container) : String :=
  json.encodeStruct
    [{ name := "command", depth := 0, tagged := true, value := c.Command.MarshalJSON },
     { name := "env_rules", depth := 0, tagged := true, value := c.EnvRules.MarshalJSON },
     { name := "layers", depth := 0, tagged := true, value := c.Layers.MarshalJSON },
     { name := "working_dir", depth := 0, tagged := true, value := json.encodeString c.WorkingDir },
     { name := "mounts", depth := 0, tagged := true, value := c.Mounts.MarshalJSON },
     { name := "allow_elevated", depth := 0, tagged := true, value := json.encodeBool c.AllowElevated }]

/-- Encoding of a `Containers`. -/
def Containers.MarshalJSON (c : Containers) : String :=
  json.encodeStruct (lengthWrapper c.Elements.len c.Length
    (json.encodeMap Container.encodeJSON c.Elements))

/-- Model of `json.Marshal(policy)` for a `*SecurityPolicy`; for these types
the encoder has no failing case. -/
def json.Marshal (policy : SecurityPolicy) : String × Option error :=
  (json.encodeStruct
    [{ name := "allow_all", depth := 0, tagged := true, value := json.encodeBool policy.AllowAll },
     { name := "containers", depth := 0, tagged := true, value := policy.Containers.MarshalJSON }],
   none)

/-! ## The marshallers and the entry points -/

/-- What this file takes from the rest of the package: the two embedded Rego
templates and the constructors of the policy objects. The constructors of the
internal forms return an object or an error of their own, given by its
text. -/
structure Package where
  policyRegoTemplate : String
  openDoorRegoTemplate : String
  NewOpenDoorPolicy : SecurityPolicy
  NewSecurityPolicy : Bool → List Container → SecurityPolicy
  newSecurityPolicyInternal : List Container → List ExternalProcessConfig →
    List FragmentConfig → Bool → Bool → Bool → Bool → Bool → Except String securityPolicyInternal
  newSecurityPolicyFragment : String → String → List Container →
    List ExternalProcessConfig → List FragmentConfig → Except String securityPolicyFragment

/-- The type `marshalFunc`. -/
abbrev marshalFunc : Type :=
  Bool → List Container → List ExternalProcessConfig → List FragmentConfig →
    Bool → Bool → Bool → Bool → Bool → String × Option error

/-- Name of the JSON marshaller. -/
def jsonMarshaller : String := "json"

/-- Name of the Rego marshaller. -/
def regoMarshaller : String := "rego"

/-- The marshaller used for the empty name. -/
def defaultMarshaller : String := jsonMarshaller

/-- The JSON marshaller; it reads `allowAll` and `containers` only. -/
def marshalJSON (pkg : Package) : marshalFunc :=
  fun allowAll containers _ _ _ _ _ _ _ =>
    let encode := fun (policy : SecurityPolicy) =>
      match json.Marshal policy with
      | (_, some err) => ("", some err)
      | (policyCode, none) => (policyCode, none)
    if allowAll then
      if containers.length > 0 then ("", some error.ErrInvalidOpenDoorPolicy)
      else encode pkg.NewOpenDoorPolicy
    else encode (pkg.NewSecurityPolicy allowAll containers)

/-- The Rego marshaller. -/
def marshalRego (pkg : Package) : marshalFunc :=
  fun allowAll containers externalProcesses fragments allowPropertiesAccess allowDumpStacks
      allowRuntimeLogging allowEnvironmentVariableDropping allowUnencryptedScratch =>
    if allowAll then
      if containers.length > 0 then ("", some error.ErrInvalidOpenDoorPolicy)
      else (pkg.openDoorRegoTemplate, none)
    else
      match pkg.newSecurityPolicyInternal containers externalProcesses fragments
          allowPropertiesAccess allowDumpStacks allowRuntimeLogging
          allowEnvironmentVariableDropping allowUnencryptedScratch with
      | .error err => ("", some (error.other err))
      | .ok policy => (policy.marshalRego pkg.policyRegoTemplate, none)

/-- The registry `registeredMarshallers` once `init` has run: the two
marshallers under their names. -/
def registeredMarshallers (pkg : Package) : List (String × marshalFunc) :=
  [(jsonMarshaller, marshalJSON pkg), (regoMarshaller, marshalRego pkg)]

/-- Renders a policy fragment to Rego. -/
def MarshalFragment (pkg : Package) (namespace_ : String) (svn : String)
    (containers : List Container) (externalProcesses : List ExternalProcessConfig)
    (fragments : List FragmentConfig) : String × Option error :=
  match pkg.newSecurityPolicyFragment namespace_ svn containers externalProcesses fragments with
  | .error err => ("", some (error.other err))
  | .ok fragment => (fragment.marshalRego, none)

/-- Renders a policy with the marshaller of the given name. -/
def MarshalPolicy (pkg : Package) (marshaller : String) (allowAll : Bool)
    (containers : List Container) (externalProcesses : List ExternalProcessConfig)
    (fragments : List FragmentConfig) (allowPropertiesAccess : Bool) (allowDumpStacks : Bool)
    (allowRuntimeLogging : Bool) (allowEnvironmentVariableDropping : Bool)
    (allowUnencryptedScratch : Bool) : String × Option error :=
  let marshaller := if marshaller = "" then defaultMarshaller else marshaller
  match (registeredMarshallers pkg).lookup marshaller with
  | none => ("", some (error.unknownMarshaller marshaller))
  | some marshal =>
    marshal allowAll containers externalProcesses fragments allowPropertiesAccess
      allowDumpStacks allowRuntimeLogging allowEnvironmentVariableDropping
      allowUnencryptedScratch

/-! ## The constructors as the spec describes them -/

/-- Modelled from the spec: the conversion of a mount to its internal form is
not in this file; destination, options, source and type are carried over field
for field. -/
def Mount.toInternal (m : Mount) : mountInternal :=
  { Source := m.Source, Destination := m.Destination, Type_ := m.Type_,
    Options := m.Options.Elements.values }

/-- Modelled from the spec: the conversion of an exec process to its internal
form is not in this file; command and signals are carried over. -/
def ExecProcessConfig.toInternal (p : ExecProcessConfig) : containerExecProcess :=
  { Command := p.Command, Signals := p.Signals }

/-- Modelled from the spec: the conversion of a container to its internal form
is not in this file; every field of the container (command, env rules, layers,
mounts, exec processes, signals, allowElevated, workingDir, allowStdioAccess)
is carried over, collections in the order of their entries. -/
def Container.toInternal (c : Container) : securityPolicyContainer :=
  { Command := c.Command.Elements.values
    EnvRules := c.EnvRules.Elements.values
    Layers := c.Layers.Elements.values
    Mounts := c.Mounts.Elements.values.map Mount.toInternal
    ExecProcesses := c.ExecProcesses.map ExecProcessConfig.toInternal
    Signals := c.Signals
    AllowElevated := c.AllowElevated
    WorkingDir := c.WorkingDir
    AllowStdioAccess := c.AllowStdioAccess }

/-- Modelled from the spec: the conversion of an external process
configuration (command, workingDir, envRules, allowStdioAccess) to its
internal form is not in this file. -/
def ExternalProcessConfig.toInternal (p : ExternalProcessConfig) : externalProcess :=
  { command := p.Command, envRules := p.EnvRules, workingDir := p.WorkingDir,
    allowStdioAccess := p.AllowStdioAccess }

/-- Modelled from the spec: the conversion of a fragment configuration
(issuer, feed, minimumSVN, includes) to its internal form is not in this
file. -/
def FragmentConfig.toInternal (f : FragmentConfig) : fragment :=
  { issuer := f.Issuer, feed := f.Feed, minimumSVN := f.MinimumSVN, includes := f.Includes }

/-- Modelled from the spec: the env rules that a constructor checks, those of
the containers and of the external processes, in input order. A mount carries
no strategy here, so no mount pattern is checked. -/
def spec.envRulesOf (containers : List Container)
    (externalProcesses : List ExternalProcessConfig) : List EnvRuleConfig :=
  containers.flatMap (fun c => c.EnvRules.Elements.values) ++
    externalProcesses.flatMap (fun p => p.EnvRules)

/-- Modelled from the spec: a rule pattern is checked where the chosen
strategy is `re2`, by attempting a compile; the result is the first pattern
that does not compile, if any. The compiler is the regular expression
library's and is a parameter. -/
def spec.invalidPattern (compiles : String → Bool) (rules : List EnvRuleConfig) :
    Option String :=
  (rules.find? (fun rule => rule.Strategy == "re2" && !compiles rule.Rule)).map
    (fun rule => rule.Rule)

/-- Modelled from the spec: `newSecurityPolicyInternal` is not in this file.
The constructor validates at build time: it fails with `InvalidPattern` when
a rule of strategy `re2` does not compile, and otherwise returns the internal
form of its arguments (lists in input order, duplicates kept). -/
def spec.newSecurityPolicyInternal (compiles : String → Bool) (containers : List Container)
    (externalProcesses : List ExternalProcessConfig) (fragments : List FragmentConfig)
    (allowPropertiesAccess allowDumpStacks allowRuntimeLogging
      allowEnvironmentVariableDropping allowUnencryptedScratch : Bool) :
    Except String securityPolicyInternal :=
  match spec.invalidPattern compiles (spec.envRulesOf containers externalProcesses) with
  | some pattern => .error ("InvalidPattern: " ++ pattern)
  | none =>
    .ok { Containers := containers.map Container.toInternal
          ExternalProcesses := externalProcesses.map ExternalProcessConfig.toInternal
          Fragments := fragments.map FragmentConfig.toInternal
          AllowPropertiesAccess := allowPropertiesAccess
          AllowDumpStacks := allowDumpStacks
          AllowRuntimeLogging := allowRuntimeLogging
          AllowEnvironmentVariableDropping := allowEnvironmentVariableDropping
          AllowUnencryptedScratch := allowUnencryptedScratch }

/-- Modelled from the spec: `newSecurityPolicyFragment` is not in this file;
it validates the rule patterns like `newSecurityPolicyInternal` and otherwise
returns the internal form of its arguments. -/
def spec.newSecurityPolicyFragment (compiles : String → Bool) (namespace_ svn : String)
    (containers : List Container) (externalProcesses : List ExternalProcessConfig)
    (fragments : List FragmentConfig) : Except String securityPolicyFragment :=
  match spec.invalidPattern compiles (spec.envRulesOf containers externalProcesses) with
  | some pattern => .error ("InvalidPattern: " ++ pattern)
  | none =>
    .ok { Namespace := namespace_
          SVN := svn
          Containers := containers.map Container.toInternal
          ExternalProcesses := externalProcesses.map ExternalProcessConfig.toInternal
          Fragments := fragments.map FragmentConfig.toInternal }

/-- Modelled from the spec: `NewOpenDoorPolicy` is not in this file; the
all-permissive policy has `allowAll` set and no containers. -/
def spec.NewOpenDoorPolicy : SecurityPolicy :=
  { AllowAll := true, Containers := { Length := 0, Elements := .nil } }

/-- Modelled from the spec: `NewSecurityPolicy` is not in this file; the
policy holds the flag and the containers, keyed by their position, with the
element count set at construction. -/
def spec.NewSecurityPolicy (allowAll : Bool) (containers : List Container) : SecurityPolicy :=
  { AllowAll := allowAll
    Containers :=
      { Length := containers.length
        Elements := .entries (containers.enum.map (fun ic => (toString ic.1, ic.2))) } }

/-- Modelled from the spec: the rest of the package as the spec describes it,
for a given regular expression compiler and given contents of the two
embedded templates. -/
def spec.package (compiles : String → Bool) (policyRegoTemplate openDoorRegoTemplate : String) :
    Package :=
  { policyRegoTemplate := policyRegoTemplate
    openDoorRegoTemplate := openDoorRegoTemplate
    NewOpenDoorPolicy := spec.NewOpenDoorPolicy
    NewSecurityPolicy := spec.NewSecurityPolicy
    newSecurityPolicyInternal := spec.newSecurityPolicyInternal compiles
    newSecurityPolicyFragment := spec.newSecurityPolicyFragment compiles }

/-! ## The reader of the generated literals

The escaping property of the spec is stated against the policy engine's
reader of double-quoted string literals. These definitions follow that
grammar (the JSON string grammar): a literal ends at the first quote that is
not escaped, a backslash starts an escape sequence, and a raw control
character is not allowed. -/

/-- The value of a hexadecimal digit. -/
def rego.hexValue (c : Char) : Option Nat :=
  if '0' ≤ c ∧ c ≤ '9' then some (c.toNat - 48)
  else if 'a' ≤ c ∧ c ≤ 'f' then some (c.toNat - 87)
  else if 'A' ≤ c ∧ c ≤ 'F' then some (c.toNat - 55)
  else none

/-- The character a one-letter escape stands for. -/
def rego.unescape (c : Char) : Option Char :=
  if c = '"' then some '"'
  else if c = '\\' then some '\\'
  else if c = '/' then some '/'
  else if c = 'b' then some (Char.ofNat 8)
  else if c = 'f' then some (Char.ofNat 12)
  else if c = 'n' then some '\n'
  else if c = 'r' then some '\r'
  else if c = 't' then some '\t'
  else none

/-- Reads a string literal after its opening quote: the characters up to the
closing quote, escapes resolved, and the text after the closing quote. -/
def rego.readStringBody : List Char → Option (List Char × List Char)
  | [] => none
  | c :: rest =>
    if c = '"' then some ([], rest)
    else if c = '\\' then
      match rest with
      | 'u' :: h1 :: h2 :: h3 :: h4 :: rest2 =>
        match rego.hexValue h1, rego.hexValue h2, rego.hexValue h3, rego.hexValue h4 with
        | some a, some b, some c, some d =>
          (rego.readStringBody rest2).map
            (fun r => (Char.ofNat (((a * 16 + b) * 16 + c) * 16 + d) :: r.1, r.2))
        | _, _, _, _ => none
      | e :: rest2 =>
        match rego.unescape e with
        | some x => (rego.readStringBody rest2).map (fun r => (x :: r.1, r.2))
        | none => none
      | [] => none
    else if c.toNat < 32 then none
    else (rego.readStringBody rest).map (fun r => (c :: r.1, r.2))

/-- Reads one double-quoted string literal at the start of a text. -/
def rego.readString : List Char → Option (String × List Char)
  | '"' :: rest => (rego.readStringBody rest).map (fun r => (⟨r.1⟩, r.2))
  | _ => none

/-- Reads string literals separated by commas up to the closing bracket that
ends the text. -/
def rego.readElements : Nat → List Char → Option (List String)
  | 0, _ => none
  | fuel + 1, text =>
    match rego.readString text with
    | some (s, ',' :: rest) => (rego.readElements fuel rest).map (fun l => s :: l)
    | some (s, [']']) => some [s]
    | _ => none

/-- Reads an array literal of string literals: the strings it holds, or `none`
when the text is not such a literal. -/
def rego.readStringArray (text : String) : Option (List String) :=
  match text.data with
  | ['[', ']'] => some []
  | '[' :: rest => rego.readElements rest.length rest
  | _ => none

/-- Skips a fixed piece of text. -/
def rego.expect (token : String) (text : List Char) : Option (List Char) :=
  if token.data.isPrefixOf text then some (text.drop token.data.length) else none

/-- Reads a boolean literal at the start of a text. -/
def rego.readBool (text : List Char) : Option (Bool × List Char) :=
  match rego.expect "true" text with
  | some rest => some (true, rest)
  | none =>
    match rego.expect "false" text with
    | some rest => some (false, rest)
    | none => none

/-- Reads an env rule object literal: the pattern, the strategy and the
required flag it holds. -/
def rego.readEnvRule (text : String) : Option (String × String × Bool) :=
  match rego.expect "\x7b\"pattern\": " text.data with
  | none => none
  | some t1 =>
    match rego.readString t1 with
    | none => none
    | some (pattern, t2) =>
      match rego.expect ", \"strategy\": " t2 with
      | none => none
      | some t3 =>
        match rego.readString t3 with
        | none => none
        | some (strategy, t4) =>
          match rego.expect ", \"required\": " t4 with
          | none => none
          | some t5 =>
            match rego.readBool t5 with
            | some (required, ['\x7d']) => some (pattern, strategy, required)
            | _ => none

/-! ## Strings that need no escaping -/

/-- The string contains no double quote. -/
def quoteFree (s : String) : Bool :=
  s.data.all (fun c => c != '"')

/-- Every string of the fragment descriptor is free of double quotes. -/
def fragment.quoteFree (f : fragment) : Bool :=
  securitypolicy.quoteFree f.issuer && securitypolicy.quoteFree f.feed &&
    securitypolicy.quoteFree f.minimumSVN && f.includes.all securitypolicy.quoteFree

/-- A character that stands for itself inside a string literal: not a double
quote, not a backslash, not a control character. -/
def rego.plainChar (c : Char) : Bool :=
  c != '"' && c != '\\' && decide (32 ≤ c.toNat)

/-- The string consists of characters that stand for themselves. -/
def rego.plain (s : String) : Bool :=
  s.data.all rego.plainChar

/-- Reads the value of the `"pattern"` key of an env rule object literal, as
one string literal. -/
def rego.readPattern (text : String) : Option String :=
  match rego.expect "\x7b\"pattern\": " text.data with
  | none => none
  | some t1 => (rego.readString t1).map (fun r => r.1)

/-! ## Texts written one after another, and occurrences of a text -/

/-- The texts of a list written one after another, nothing in between. -/
def strings.concat : List String → String
  | [] => ""
  | a :: rest => a ++ strings.concat rest

/-- The text `old` occurs somewhere in the text. -/
def strings.containsChars (old : List Char) : List Char → Bool
  | [] => old.isEmpty
  | c :: cs => old.isPrefixOf (c :: cs) || strings.containsChars old cs

/-- Model of `strings.Contains(s, substr)`. -/
def strings.Contains (s substr : String) : Bool :=
  strings.containsChars substr.data s.data

/-- A package whose constructors of the internal forms always fail; used to
exercise the error paths. -/
def failingPackage : Package :=
  { policyRegoTemplate := "##OBJECTS##"
    openDoorRegoTemplate := "package policy"
    NewOpenDoorPolicy := spec.NewOpenDoorPolicy
    NewSecurityPolicy := spec.NewSecurityPolicy
    newSecurityPolicyInternal := fun _ _ _ _ _ _ _ _ => .error "invalid container"
    newSecurityPolicyFragment := fun _ _ _ _ _ => .error "invalid container" }

/-- A container with one command argument and nothing else. -/
def sampleContainer : Container :=
  { Command := { Length := 1, Elements := .entries [("0", "ash")] }
    EnvRules := { Length := 0, Elements := .entries [] }
    Layers := { Length := 0, Elements := .entries [] }
    WorkingDir := "/"
    Mounts := { Length := 0, Elements := .entries [] }
    AllowElevated := false
    ExecProcesses := []
    Signals := []
    AllowStdioAccess := true }

/-- A stand-in for the regular expression compiler, used to exercise the
constructors: the scan of a pattern with the number of open groups and
whether a character class is open. A pattern passes when every group and
every class is closed and no escape is cut short. -/
def regexp.closedChars : List Char → Nat → Bool → Bool
  | [], depth, inClass => depth == 0 && !inClass
  | c :: rest, depth, inClass =>
    if c = '\\' then
      match rest with
      | [] => false
      | _ :: rest2 => regexp.closedChars rest2 depth inClass
    else if inClass then regexp.closedChars rest depth (c != ']')
    else if c = '[' then regexp.closedChars rest depth true
    else if c = '(' then regexp.closedChars rest (depth + 1) false
    else if c = ')' then
      match depth with
      | 0 => false
      | d + 1 => regexp.closedChars rest d false
    else regexp.closedChars rest depth false

/-- The stand-in compiler on a pattern. -/
def regexp.sampleCompiles (pattern : String) : Bool :=
  regexp.closedChars pattern.data 0 false

/-- A container whose one env rule is of strategy `re2` with the pattern
`A=(`, a group that is never closed. -/
def badPatternContainer : Container :=
  { Command := { Length := 1, Elements := .entries [("0", "ash")] }
    EnvRules :=
      { Length := 1
        Elements := .entries [("0", { Strategy := "re2", Rule := "A=(", Required := true })] }
    Layers := { Length := 0, Elements := .entries [] }
    WorkingDir := "/"
    Mounts := { Length := 0, Elements := .entries [] }
    AllowElevated := false
    ExecProcesses := []
    Signals := []
    AllowStdioAccess := true }

end securitypolicy

/-!
# Signed fragments (`pkg/cosesign1`) and the fragment trust gate

Only the test of `pkg/cosesign1` is among the source files, and no code of the
trust gate is. The document that a successful validation returns and the
trust gate are modelled from the spec (§3, §4.3).
-/

namespace cosesign1

/-- Modelled from the spec: a byte string (the payload of a document). -/
abbrev Bytes : Type := List UInt8

/-- Modelled from the spec: `UnpackedDocument`, what a successful validation
returns. -/
structure UnpackedDocument where
  issuer : String
  feed : String
  contentType : String
  payload : Bytes
  leafPublicKeyPem : String
  leafCertificatePem : String
  deriving DecidableEq, Repr

/-! ## The fragment trust gate (spec §4.3) -/

/-- Modelled from the spec: `Fragment` (§3), issuer, feed, minimum SVN and the
tags of what the fragment contributes. -/
structure Fragment where
  issuer : String
  feed : String
  minimumSVN : String
  includes : List String
  deriving DecidableEq, Repr

/-- Modelled from the spec: the failures of the trust gate. -/
inductive TrustFailure
  | IssuerMismatch
  | FeedMismatch
  | SVNTooLow
  deriving DecidableEq, Repr

/-- Modelled from the spec: what a verified fragment declares about itself,
its SVN and the tags of what it contributes. -/
structure Declaration where
  svn : String
  includes : List String
  deriving DecidableEq, Repr

/-- Modelled from the spec: the pieces of a version string between its dots. -/
def splitAtDots : List Char → List (List Char)
  | [] => [[]]
  | c :: cs =>
    if c = '.' then [] :: splitAtDots cs
    else
      match splitAtDots cs with
      | [] => [[c]]
      | piece :: pieces => (c :: piece) :: pieces

/-- Modelled from the spec: a component of a version is a non-negative
integer, written as a non-empty run of decimal digits. -/
def parseComponent (piece : List Char) : Option Nat :=
  if piece ≠ [] ∧ piece.all Char.isDigit = true then
    some (piece.foldl (fun n c => 10 * n + (c.toNat - 48)) 0)
  else none

/-- Modelled from the spec: an SVN is parsed as a dot-separated sequence of
non-negative integers. -/
def parseSVN (svn : String) : Option (List Nat) :=
  (splitAtDots svn.data).mapM parseComponent

/-- Modelled from the spec: the order of parsed SVNs, lexicographic by
component: the first component that differs decides, and a sequence is below
every proper extension of it. -/
def svnBelow : List Nat → List Nat → Bool
  | [], [] => false
  | [], _ :: _ => true
  | _ :: _, [] => false
  | a :: as, b :: bs => decide (a < b) || (a == b && svnBelow as bs)

/-- Modelled from the spec: `authorize` (§4.3). Issuer and feed must match
exactly; the declared SVN must parse and must not be below the required
minimum. The failures are `IssuerMismatch`, `FeedMismatch` and `SVNTooLow` in
that order of checking. How the declaration is read from the verified
document is not given by the spec and is a parameter. -/
def authorize (declared : UnpackedDocument → Declaration) (document : UnpackedDocument)
    (expectedIssuer expectedFeed requiredMinimumSVN : String) : Except TrustFailure Fragment :=
  if document.issuer ≠ expectedIssuer then .error .IssuerMismatch
  else if document.feed ≠ expectedFeed then .error .FeedMismatch
  else
    match parseSVN (declared document).svn, parseSVN requiredMinimumSVN with
    | some svn, some minimum =>
      if svnBelow svn minimum then .error .SVNTooLow
      else .ok { issuer := document.issuer, feed := document.feed,
                 minimumSVN := requiredMinimumSVN, includes := (declared document).includes }
    | _, _ => .error .SVNTooLow

/-- A verified document of the sample issuer and feed. -/
def sampleDocument : UnpackedDocument :=
  { issuer := "TestIssuer", feed := "TestFeed", contentType := "application/unknown+json",
    payload := [104, 105], leafPublicKeyPem := "-----BEGIN PUBLIC KEY-----",
    leafCertificatePem := "-----BEGIN CERTIFICATE-----" }

end cosesign1

namespace securitypolicy

/-! ## Entry points: which calls fail, and with what -/

/-- The registry holds exactly the names `json` and `rego`. -/
theorem lookup_registeredMarshallers (pkg : Package) (name : String) :
    (registeredMarshallers pkg).lookup name =
      if name = "json" then some (marshalJSON pkg)
      else if name = "rego" then some (marshalRego pkg) else none := by
  simp only [registeredMarshallers, jsonMarshaller, regoMarshaller, List.lookup]
  by_cases h1 : name = "json"
  · simp [h1]
  · by_cases h2 : name = "rego"
    · subst h2
      simp
    · have e1 : (name == "json") = false := by simpa using h1
      have e2 : (name == "rego") = false := by simpa using h2
      simp [e1, e2, h1, h2]

/-- The JSON marshaller returns an error only for the open-door conflict. -/
theorem marshalJSON_eq (pkg : Package) (allowAll : Bool) (containers : List Container)
    (externalProcesses : List ExternalProcessConfig) (fragments : List FragmentConfig)
    (b1 b2 b3 b4 b5 : Bool) :
    marshalJSON pkg allowAll containers externalProcesses fragments b1 b2 b3 b4 b5 =
      if allowAll = true then
        if containers.length > 0 then ("", some error.ErrInvalidOpenDoorPolicy)
        else ((json.Marshal pkg.NewOpenDoorPolicy).1, none)
      else ((json.Marshal (pkg.NewSecurityPolicy allowAll containers)).1, none) := by
  simp only [marshalJSON, json.Marshal]

/-- `MarshalPolicy` by cases on the encoding name. -/
theorem MarshalPolicy_eq (pkg : Package) (marshaller : String) (allowAll : Bool)
    (containers : List Container) (externalProcesses : List ExternalProcessConfig)
    (fragments : List FragmentConfig) (b1 b2 b3 b4 b5 : Bool) :
    MarshalPolicy pkg marshaller allowAll containers externalProcesses fragments b1 b2 b3 b4 b5 =
      if marshaller = "" ∨ marshaller = "json" then
        marshalJSON pkg allowAll containers externalProcesses fragments b1 b2 b3 b4 b5
      else if marshaller = "rego" then
        marshalRego pkg allowAll containers externalProcesses fragments b1 b2 b3 b4 b5
      else ("", some (error.unknownMarshaller marshaller)) := by
  simp only [MarshalPolicy, defaultMarshaller, jsonMarshaller, lookup_registeredMarshallers]
  by_cases h0 : marshaller = ""
  · subst h0
    simp
  · by_cases h1 : marshaller = "json"
    · subst h1
      simp
    · by_cases h2 : marshaller = "rego"
      · subst h2
        simp
      · simp [h0, h1, h2]

/-- The error of the JSON marshaller: the open-door conflict or none. -/
theorem marshalJSON_error (pkg : Package) (allowAll : Bool) (containers : List Container)
    (externalProcesses : List ExternalProcessConfig) (fragments : List FragmentConfig)
    (b1 b2 b3 b4 b5 : Bool) :
    (marshalJSON pkg allowAll containers externalProcesses fragments b1 b2 b3 b4 b5).2 =
      if allowAll = true ∧ containers ≠ [] then some error.ErrInvalidOpenDoorPolicy
      else none := by
  rw [marshalJSON_eq]
  cases allowAll <;> cases containers <;> simp

/-- The error of the Rego marshaller: the open-door conflict, the error of the
constructor, or none. -/
theorem marshalRego_error (pkg : Package) (allowAll : Bool) (containers : List Container)
    (externalProcesses : List ExternalProcessConfig) (fragments : List FragmentConfig)
    (b1 b2 b3 b4 b5 : Bool) :
    (marshalRego pkg allowAll containers externalProcesses fragments b1 b2 b3 b4 b5).2 =
      if allowAll = true then
        if containers ≠ [] then some error.ErrInvalidOpenDoorPolicy else none
      else
        match pkg.newSecurityPolicyInternal containers externalProcesses fragments
          b1 b2 b3 b4 b5 with
        | .error err => some (error.other err)
        | .ok _ => none := by
  simp only [marshalRego]
  cases allowAll <;> cases containers <;> simp <;> split <;> simp

/-- A marshaller that returns an error returns the empty document. -/
theorem marshaller_error_document (pkg : Package) (allowAll : Bool)
    (containers : List Container) (externalProcesses : List ExternalProcessConfig)
    (fragments : List FragmentConfig) (b1 b2 b3 b4 b5 : Bool) :
    ((marshalJSON pkg allowAll containers externalProcesses fragments b1 b2 b3 b4 b5).2 ≠ none →
      (marshalJSON pkg allowAll containers externalProcesses fragments b1 b2 b3 b4 b5).1 = "") ∧
    ((marshalRego pkg allowAll containers externalProcesses fragments b1 b2 b3 b4 b5).2 ≠ none →
      (marshalRego pkg allowAll containers externalProcesses fragments b1 b2 b3 b4 b5).1 = "") := by
  constructor
  · rw [marshalJSON_eq]
    cases allowAll <;> cases containers <;> simp
  · simp only [marshalRego]
    cases allowAll <;> cases containers <;> simp <;> split <;> simp

/-- C1: for each recognised encoding name (`""`, `"json"`, `"rego"`) and every
non-empty container list, `MarshalPolicy` with `allowAll = true` returns the
empty document and `ErrInvalidOpenDoorPolicy`, whatever the other arguments
and the rest of the package are. -/
theorem MarshalPolicy_allowAll_with_containers (pkg : Package) (marshaller : String)
    (hm : marshaller = "" ∨ marshaller = "json" ∨ marshaller = "rego")
    (containers : List Container) (hc : containers ≠ [])
    (externalProcesses : List ExternalProcessConfig) (fragments : List FragmentConfig)
    (b1 b2 b3 b4 b5 : Bool) :
    MarshalPolicy pkg marshaller true containers externalProcesses fragments b1 b2 b3 b4 b5 =
      ("", some error.ErrInvalidOpenDoorPolicy) := by
  have hlen : containers.length > 0 := List.length_pos.mpr hc
  rw [MarshalPolicy_eq]
  rcases hm with h | h | h <;> subst h <;> simp [marshalJSON_eq, marshalRego, hlen]

/-- Witness of C1: the JSON marshaller, one container. -/
theorem MarshalPolicy_allowAll_with_containers_witness :
    MarshalPolicy failingPackage "json" true [sampleContainer] [] [] false false false false
      false = ("", some error.ErrInvalidOpenDoorPolicy) :=
  MarshalPolicy_allowAll_with_containers failingPackage "json" (Or.inr (Or.inl rfl))
    [sampleContainer] (by simp) [] [] false false false false false

/-- C5: with `allowAll = true` and no containers the `rego` encoding returns
the open-door template as it is and no error, for every choice of external
processes, fragments and toggles. -/
theorem MarshalPolicy_rego_open_door (pkg : Package)
    (externalProcesses : List ExternalProcessConfig) (fragments : List FragmentConfig)
    (b1 b2 b3 b4 b5 : Bool) :
    MarshalPolicy pkg "rego" true [] externalProcesses fragments b1 b2 b3 b4 b5 =
      (pkg.openDoorRegoTemplate, none) := by
  rw [MarshalPolicy_eq]
  simp [marshalRego]

/-- C6: `MarshalPolicy` returns the empty document and the unknown-marshaller
error naming the requested encoding exactly when the name is none of `""`,
`"json"` and `"rego"`, whatever the other arguments are (so before any
`allowAll` check); no other name produces an unknown-marshaller error, and the
names `JSON` and `Rego` are not recognised. -/
theorem MarshalPolicy_unknown_marshaller (pkg : Package) (marshaller : String) (allowAll : Bool)
    (containers : List Container) (externalProcesses : List ExternalProcessConfig)
    (fragments : List FragmentConfig) (b1 b2 b3 b4 b5 : Bool) :
    (MarshalPolicy pkg marshaller allowAll containers externalProcesses fragments b1 b2 b3 b4 b5 =
        ("", some (error.unknownMarshaller marshaller)) ↔
      ¬ (marshaller = "" ∨ marshaller = "json" ∨ marshaller = "rego")) ∧
    ((∃ name, (MarshalPolicy pkg marshaller allowAll containers externalProcesses fragments
        b1 b2 b3 b4 b5).2 = some (error.unknownMarshaller name)) ↔
      ¬ (marshaller = "" ∨ marshaller = "json" ∨ marshaller = "rego")) ∧
    MarshalPolicy pkg "JSON" allowAll containers externalProcesses fragments b1 b2 b3 b4 b5 =
      ("", some (error.unknownMarshaller "JSON")) ∧
    MarshalPolicy pkg "Rego" allowAll containers externalProcesses fragments b1 b2 b3 b4 b5 =
      ("", some (error.unknownMarshaller "Rego")) := by
  have key : ∀ m : String, ¬ (m = "" ∨ m = "json" ∨ m = "rego") →
      MarshalPolicy pkg m allowAll containers externalProcesses fragments b1 b2 b3 b4 b5 =
        ("", some (error.unknownMarshaller m)) := by
    intro m hm
    have h0 : m ≠ "" := fun h => hm (Or.inl h)
    have h1 : m ≠ "json" := fun h => hm (Or.inr (Or.inl h))
    have h2 : m ≠ "rego" := fun h => hm (Or.inr (Or.inr h))
    rw [MarshalPolicy_eq]
    simp [h0, h1, h2]
  have known : (marshaller = "" ∨ marshaller = "json" ∨ marshaller = "rego") →
      ∀ name, (MarshalPolicy pkg marshaller allowAll containers externalProcesses fragments
        b1 b2 b3 b4 b5).2 ≠ some (error.unknownMarshaller name) := by
    intro hm name
    rw [MarshalPolicy_eq]
    rcases hm with h | h | h <;> subst h
    · simp only [true_or, if_true, marshalJSON_error]
      split <;> simp
    · simp only [or_true, if_true, marshalJSON_error]
      split <;> simp
    · have hne : ¬ ("rego" = "" ∨ "rego" = "json") := by decide
      simp only [hne, if_false, if_true, marshalRego_error]
      split
      · split <;> simp
      · split <;> simp
  refine ⟨⟨fun h hm => ?_, key marshaller⟩, ⟨fun h hm => ?_, fun hm => ?_⟩, ?_, ?_⟩
  · exact known hm marshaller (by rw [h])
  · obtain ⟨name, hname⟩ := h
    exact known hm name hname
  · exact ⟨marshaller, by rw [key marshaller hm]⟩
  · exact key "JSON" (by decide)
  · exact key "Rego" (by decide)

/-- C7: the empty encoding name gives exactly the result of the name `json`
on the same arguments. -/
theorem MarshalPolicy_default_is_json (pkg : Package) (allowAll : Bool)
    (containers : List Container) (externalProcesses : List ExternalProcessConfig)
    (fragments : List FragmentConfig) (b1 b2 b3 b4 b5 : Bool) :
    MarshalPolicy pkg "" allowAll containers externalProcesses fragments b1 b2 b3 b4 b5 =
      MarshalPolicy pkg "json" allowAll containers externalProcesses fragments b1 b2 b3 b4 b5 := by
  simp [MarshalPolicy, defaultMarshaller, jsonMarshaller]

/-- C8 (amended): for every recognised encoding name and every input in which
`allowAll` is false or the container list is empty, `MarshalPolicy` returns
no error, except with the `rego` encoding and `allowAll` false when the
constructor of the internal policy fails: then the error is the
constructor's. With the constructor's policy the document is its Rego
rendering. -/
theorem MarshalPolicy_fails_only_with_constructor (pkg : Package) (marshaller : String)
    (hm : marshaller = "" ∨ marshaller = "json" ∨ marshaller = "rego")
    (allowAll : Bool) (containers : List Container) (hc : allowAll = false ∨ containers = [])
    (externalProcesses : List ExternalProcessConfig) (fragments : List FragmentConfig)
    (b1 b2 b3 b4 b5 : Bool) :
    (MarshalPolicy pkg marshaller allowAll containers externalProcesses fragments
        b1 b2 b3 b4 b5).2 =
        (if marshaller = "rego" ∧ allowAll = false then
          match pkg.newSecurityPolicyInternal containers externalProcesses fragments
            b1 b2 b3 b4 b5 with
          | .error err => some (error.other err)
          | .ok _ => none
        else none) ∧
      (∀ policy, marshaller = "rego" → allowAll = false →
        pkg.newSecurityPolicyInternal containers externalProcesses fragments b1 b2 b3 b4 b5 =
          .ok policy →
        MarshalPolicy pkg marshaller allowAll containers externalProcesses fragments
          b1 b2 b3 b4 b5 = (policy.marshalRego pkg.policyRegoTemplate, none)) := by
  constructor
  · rw [MarshalPolicy_eq]
    rcases hm with h | h | h <;> subst h
    · have hne : ¬ ("" = "rego" ∧ allowAll = false) := by simp
      simp only [true_or, if_true, marshalJSON_error, hne, if_false]
      rcases hc with h | h <;> subst h <;> simp
    · have hne : ¬ ("json" = "rego" ∧ allowAll = false) := by simp
      simp only [or_true, if_true, marshalJSON_error, hne, if_false]
      rcases hc with h | h <;> subst h <;> simp
    · have hne : ¬ ("rego" = "" ∨ "rego" = "json") := by decide
      simp only [hne, if_false, if_true, marshalRego_error, true_and]
      rcases hc with h | h
      · subst h
        simp
      · subst h
        cases allowAll <;> simp
  · intro policy hr ha hok
    subst hr
    subst ha
    rw [MarshalPolicy_eq]
    have hne : ¬ ("rego" = "" ∨ "rego" = "json") := by decide
    simp only [hne, if_false, if_true, marshalRego, hok, Bool.false_eq_true]

/-- Witness of C8 (amended): the Rego marshaller on one container, `allowAll`
false, with the constructor of the spec. -/
theorem MarshalPolicy_fails_only_with_constructor_witness :
    (MarshalPolicy (spec.package regexp.sampleCompiles "##OBJECTS##" "package policy") "rego"
      false [sampleContainer] [] [] true true true false false).2 = none :=
  ((MarshalPolicy_fails_only_with_constructor
    (spec.package regexp.sampleCompiles "##OBJECTS##" "package policy") "rego"
    (Or.inr (Or.inr rfl)) false [sampleContainer] (Or.inl rfl) [] [] true true true false
    false).1).trans (by decide)

/-- C8 fails as stated: with a recognised encoding and `allowAll` false, a
container whose `re2` rule `A=(` does not compile makes the constructor fail
with `InvalidPattern`, and `MarshalPolicy` returns that error and no
document. -/
theorem MarshalPolicy_invalid_pattern :
    MarshalPolicy (spec.package regexp.sampleCompiles "##OBJECTS##" "package policy") "rego"
        false [badPatternContainer] [] [] true true true false false =
      ("", some (error.other "InvalidPattern: A=(")) := by
  decide

/-- C9: whenever `MarshalPolicy` or `MarshalFragment` returns an error, the
document returned with it is the empty string. -/
theorem error_has_empty_document (pkg : Package) (marshaller : String) (allowAll : Bool)
    (containers : List Container) (externalProcesses : List ExternalProcessConfig)
    (fragments : List FragmentConfig) (b1 b2 b3 b4 b5 : Bool) (namespace_ svn : String) :
    ((MarshalPolicy pkg marshaller allowAll containers externalProcesses fragments
        b1 b2 b3 b4 b5).2 ≠ none →
      (MarshalPolicy pkg marshaller allowAll containers externalProcesses fragments
        b1 b2 b3 b4 b5).1 = "") ∧
    ((MarshalFragment pkg namespace_ svn containers externalProcesses fragments).2 ≠ none →
      (MarshalFragment pkg namespace_ svn containers externalProcesses fragments).1 = "") := by
  constructor
  · rw [MarshalPolicy_eq]
    have hd := marshaller_error_document pkg allowAll containers externalProcesses fragments
      b1 b2 b3 b4 b5
    split_ifs
    · exact hd.1
    · exact hd.2
    · intro _
      rfl
  · simp only [MarshalFragment]
    split <;> simp

/-- Witness of C9: an unknown encoding name for `MarshalPolicy`, a failing
constructor for `MarshalFragment`. -/
theorem error_has_empty_document_witness :
    ((MarshalPolicy failingPackage "yaml" false [] [] [] false false false false false).2 ≠ none ∧
      (MarshalPolicy failingPackage "yaml" false [] [] [] false false false false false).1 = "") ∧
    ((MarshalFragment failingPackage "ns" "1" [] [] []).2 ≠ none ∧
      (MarshalFragment failingPackage "ns" "1" [] [] []).1 = "") :=
  ⟨⟨by decide, (error_has_empty_document failingPackage "yaml" false [] [] [] false false false
      false false "ns" "1").1 (by decide)⟩,
    ⟨by decide, (error_has_empty_document failingPackage "yaml" false [] [] [] false false false
      false false "ns" "1").2 (by decide)⟩⟩

/-! ## The `length` field of the JSON encoding -/

/-- Of the two fields named `length`, the added one is encoded: it is the
shallower. -/
theorem lengthWrapper_fields (len : Nat) (ownLength : Int) (elements : String) :
    json.dominantFields (lengthWrapper len ownLength elements) =
      [{ name := "length", depth := 0, tagged := true, value := json.encodeInt len },
       { name := "elements", depth := 1, tagged := true, value := elements }] := by
  rfl

/-- The text of the anonymous struct. -/
theorem lengthWrapper_encode (len : Nat) (ownLength : Int) (elements : String) :
    json.encodeStruct (lengthWrapper len ownLength elements) =
      "\x7b\"length\":" ++ json.encodeInt len ++ ",\"elements\":" ++ elements ++ "\x7d" := by
  have h1 : json.encodeString "length" = "\"length\"" := by decide
  have h2 : json.encodeString "elements" = "\"elements\"" := by decide
  simp only [json.encodeStruct, lengthWrapper_fields, List.map, strings.Join, h1, h2]
  apply String.ext
  simp [String.data_append]

/-- C10: for each of `Containers`, `EnvRules`, `StringArrayMap`, `Mounts`,
`CommandArgs`, `Layers` and `Options`, the object written by `MarshalJSON` is
`length` with the number of entries of `Elements`, then `elements`; the
`Length` the value was built with does not occur in it. `CommandArgs`,
`Layers` and `Options` encode as the `StringArrayMap` of the same contents. -/
theorem MarshalJSON_length_field (c : Containers) (e : EnvRules) (s : StringArrayMap)
    (m : Mounts) (a : CommandArgs) (l : Layers) (o : Options) :
    (c.MarshalJSON = "\x7b\"length\":" ++ json.encodeInt c.Elements.len ++ ",\"elements\":" ++
        json.encodeMap Container.encodeJSON c.Elements ++ "\x7d") ∧
    (e.MarshalJSON = "\x7b\"length\":" ++ json.encodeInt e.Elements.len ++ ",\"elements\":" ++
        json.encodeMap EnvRuleConfig.encodeJSON e.Elements ++ "\x7d") ∧
    (s.MarshalJSON = "\x7b\"length\":" ++ json.encodeInt s.Elements.len ++ ",\"elements\":" ++
        json.encodeMap json.encodeString s.Elements ++ "\x7d") ∧
    (m.MarshalJSON = "\x7b\"length\":" ++ json.encodeInt m.Elements.len ++ ",\"elements\":" ++
        json.encodeMap Mount.encodeJSON m.Elements ++ "\x7d") ∧
    (a.MarshalJSON = "\x7b\"length\":" ++ json.encodeInt a.Elements.len ++ ",\"elements\":" ++
        json.encodeMap json.encodeString a.Elements ++ "\x7d") ∧
    (l.MarshalJSON = "\x7b\"length\":" ++ json.encodeInt l.Elements.len ++ ",\"elements\":" ++
        json.encodeMap json.encodeString l.Elements ++ "\x7d") ∧
    (o.MarshalJSON = "\x7b\"length\":" ++ json.encodeInt o.Elements.len ++ ",\"elements\":" ++
        json.encodeMap json.encodeString o.Elements ++ "\x7d") ∧
    a.MarshalJSON = StringArrayMap.MarshalJSON { Length := a.Length, Elements := a.Elements } ∧
    l.MarshalJSON = StringArrayMap.MarshalJSON { Length := l.Length, Elements := l.Elements } ∧
    o.MarshalJSON = StringArrayMap.MarshalJSON { Length := o.Length, Elements := o.Elements } := by
  refine ⟨?_, ?_, ?_, ?_, ?_, ?_, ?_, rfl, rfl, rfl⟩ <;>
    simp only [Containers.MarshalJSON, EnvRules.MarshalJSON, StringArrayMap.MarshalJSON,
      Mounts.MarshalJSON, CommandArgs.MarshalJSON, Layers.MarshalJSON, Options.MarshalJSON,
      CommandArgs.toStringArrayMap, Layers.toStringArrayMap, Options.toStringArrayMap,
      lengthWrapper_encode]

/-! ## The Rego literals and their reader -/

/-- The characters of a string array literal. -/
theorem stringArray_marshalRego_data (array : List String) :
    (stringArray.marshalRego array).data =
      '[' :: ((strings.Join (array.map (fun value => fmt.Sprintf "\"%s\"" [.string value]))
        ",").data ++ [']']) := rfl

/-- An element is written between two double quotes, as it is. -/
theorem quoted_data (value : String) :
    (fmt.Sprintf "\"%s\"" [.string value]).data = '"' :: (value.data ++ ['"']) := rfl

/-- The characters of an env rule literal. -/
theorem EnvRuleConfig_marshalRego_data (e : EnvRuleConfig) :
    e.marshalRego.data =
      "\x7b\"pattern\": ".data ++ ('"' :: (e.Rule.data ++ ('"' :: (", \"strategy\": ".data ++ ('"' :: (e.Strategy.data ++ ('"' :: (", \"required\": ".data ++ ((fmt.formatBool e.Required).data ++ (['\x7d'])))))))))) := rfl

/-- The characters of a fragment literal. -/
theorem fragment_marshalRego_data (f : fragment) :
    f.marshalRego.data =
      "\x7b\"issuer\": \"".data ++ (f.issuer.data ++ ('"' :: (", \"feed\": \"".data ++ (f.feed.data ++ ('"' :: (", \"minimum_svn\": \"".data ++ (f.minimumSVN.data ++ ('"' :: (", \"includes\": ".data ++ ((stringArray.marshalRego f.includes).data ++ (['\x7d']))))))))))) := rfl

/-- The reader returns plain characters unchanged up to the closing quote. -/
theorem readStringBody_plain (cs rest : List Char) (h : cs.all rego.plainChar = true) :
    rego.readStringBody (cs ++ '"' :: rest) = some (cs, rest) := by
  induction cs with
  | nil =>
    rw [List.nil_append, rego.readStringBody.eq_def]
    simp
  | cons c cs ih =>
    simp only [List.all_cons, Bool.and_eq_true, rego.plainChar, bne_iff_ne, ne_eq,
      decide_eq_true_eq] at h
    obtain ⟨⟨⟨h1, h2⟩, h3⟩, h4⟩ := h
    have h5 : ¬ c.toNat < 32 := by omega
    rw [List.cons_append, rego.readStringBody.eq_def]
    simp [h1, h2, h5, ih h4]

/-- A fixed piece of text is skipped when the text starts with it. -/
theorem expect_append (token : String) (rest : List Char) :
    rego.expect token (token.data ++ rest) = some rest := by
  simp [rego.expect]


/-- Two texts that agree and each start with a quote-free part followed by a
quote agree on that part and on what follows the quote. -/
theorem split_at_quote (a b r1 r2 : List Char) (ha : a.all (fun c => c != '"') = true)
    (hb : b.all (fun c => c != '"') = true) (h : a ++ '"' :: r1 = b ++ '"' :: r2) :
    a = b ∧ r1 = r2 := by
  induction a generalizing b with
  | nil =>
    cases b with
    | nil => simpa using h
    | cons c cs =>
      simp only [List.nil_append, List.cons_append, List.cons.injEq] at h
      simp [← h.1] at hb
  | cons x xs ih =>
    cases b with
    | nil =>
      simp only [List.nil_append, List.cons_append, List.cons.injEq] at h
      simp [h.1] at ha
    | cons c cs =>
      simp only [List.cons_append, List.cons.injEq] at h
      simp only [List.all_cons, Bool.and_eq_true] at ha hb
      obtain ⟨e1, e2⟩ := ih cs ha.2 hb.2 h.2
      exact ⟨by rw [h.1, e1], e2⟩

/-- The joined text of one quoted element. -/
theorem join_quoted_single (x : String) :
    (strings.Join ([x].map (fun value => fmt.Sprintf "\"%s\"" [.string value])) ",").data =
      '"' :: (x.data ++ ['"']) := rfl

/-- The joined text of two or more quoted elements. -/
theorem join_quoted_cons (x y : String) (rest : List String) :
    (strings.Join ((x :: y :: rest).map (fun value => fmt.Sprintf "\"%s\"" [.string value]))
        ",").data =
      '"' :: (x.data ++ '"' :: ',' ::
        (strings.Join ((y :: rest).map (fun value => fmt.Sprintf "\"%s\"" [.string value]))
          ",").data) := by
  simp only [List.map, strings.Join, String.data_append, quoted_data]
  simp

/-- Joining quoted elements is injective on lists of quote-free strings. -/
theorem join_quoted_injective (xs ys : List String)
    (hx : xs.all quoteFree = true) (hy : ys.all quoteFree = true)
    (h : (strings.Join (xs.map (fun value => fmt.Sprintf "\"%s\"" [.string value])) ",").data =
      (strings.Join (ys.map (fun value => fmt.Sprintf "\"%s\"" [.string value])) ",").data) :
    xs = ys := by
  induction xs generalizing ys with
  | nil =>
    cases ys with
    | nil => rfl
    | cons y ys =>
      cases ys with
      | nil =>
        rw [join_quoted_single] at h
        simp [strings.Join] at h
      | cons y2 ys2 =>
        rw [join_quoted_cons] at h
        simp [strings.Join] at h
  | cons x xs ih =>
    simp only [List.all_cons, Bool.and_eq_true] at hx
    cases ys with
    | nil =>
      cases xs with
      | nil =>
        rw [join_quoted_single] at h
        simp [strings.Join] at h
      | cons x2 xs2 =>
        rw [join_quoted_cons] at h
        simp [strings.Join] at h
    | cons y ys =>
      simp only [List.all_cons, Bool.and_eq_true] at hy
      cases xs with
      | nil =>
        cases ys with
        | nil =>
          rw [join_quoted_single, join_quoted_single] at h
          simp only [List.cons.injEq, true_and] at h
          have := split_at_quote x.data y.data [] [] hx.1 hy.1 h
          rw [String.ext this.1]
        | cons y2 ys2 =>
          rw [join_quoted_single, join_quoted_cons] at h
          simp only [List.cons.injEq, true_and] at h
          have := split_at_quote x.data y.data [] _ hx.1 hy.1 h
          simp at this
      | cons x2 xs2 =>
        cases ys with
        | nil =>
          rw [join_quoted_single, join_quoted_cons] at h
          simp only [List.cons.injEq, true_and] at h
          have := split_at_quote x.data y.data _ [] hx.1 hy.1 h
          simp at this
        | cons y2 ys2 =>
          rw [join_quoted_cons, join_quoted_cons] at h
          simp only [List.cons.injEq, true_and] at h
          have := split_at_quote x.data y.data _ _ hx.1 hy.1 h
          have e := ih (y2 :: ys2) hx.2 hy.2 (by simpa using this.2)
          rw [String.ext this.1, e]

/-- The string array literal, followed by a closing brace, determines a list
of quote-free strings. -/
theorem stringArray_marshalRego_injective (xs ys : List String)
    (hx : xs.all quoteFree = true) (hy : ys.all quoteFree = true)
    (h : (stringArray.marshalRego xs).data ++ ['\x7d'] =
      (stringArray.marshalRego ys).data ++ ['\x7d']) : xs = ys := by
  have h1 := List.append_cancel_right h
  rw [stringArray_marshalRego_data, stringArray_marshalRego_data] at h1
  simp only [List.cons.injEq, true_and] at h1
  exact join_quoted_injective xs ys hx hy (List.append_cancel_right h1)

/-- C4 (amended): `fragment.marshalRego` is injective on descriptors whose
issuer, feed, minimum SVN and includes contain no double quote: two such
descriptors that differ render as different object literals. -/
theorem fragment_marshalRego_injective (f g : fragment) (hf : f.quoteFree = true)
    (hg : g.quoteFree = true) (hne : f ≠ g) : f.marshalRego ≠ g.marshalRego := by
  intro h
  apply hne
  have hd := congrArg String.data h
  rw [fragment_marshalRego_data, fragment_marshalRego_data] at hd
  simp only [fragment.quoteFree, quoteFree, Bool.and_eq_true] at hf hg
  obtain ⟨⟨⟨hf1, hf2⟩, hf3⟩, hf4⟩ := hf
  obtain ⟨⟨⟨hg1, hg2⟩, hg3⟩, hg4⟩ := hg
  have s1 := split_at_quote _ _ _ _ hf1 hg1 (List.append_cancel_left hd)
  have s2 := split_at_quote _ _ _ _ hf2 hg2 (List.append_cancel_left s1.2)
  have s3 := split_at_quote _ _ _ _ hf3 hg3 (List.append_cancel_left s2.2)
  have s4 := stringArray_marshalRego_injective _ _ hf4 hg4 (List.append_cancel_left s3.2)
  cases f
  cases g
  simp only [fragment.mk.injEq]
  exact ⟨String.ext s1.1, String.ext s2.1, String.ext s3.1, s4⟩

/-- A plain string between double quotes is read back as it is. -/
theorem readString_plain (s : String) (rest : List Char) (h : rego.plain s = true) :
    rego.readString ('"' :: (s.data ++ '"' :: rest)) = some (s, rest) := by
  simp [rego.readString, readStringBody_plain s.data rest h]

/-- C2 (amended): for every string without double quote, backslash and
control character, the array literal of the one-element list is read as
exactly that one string. -/
theorem stringArray_marshalRego_reads_back (s : String) (h : rego.plain s = true) :
    rego.readStringArray (stringArray.marshalRego [s]) = some [s] := by
  have hd : (stringArray.marshalRego [s]).data = '[' :: '"' :: (s.data ++ '"' :: [']']) := by
    rw [stringArray_marshalRego_data, join_quoted_single]
    simp
  unfold rego.readStringArray
  rw [hd]
  have hr : rego.readElements (s.length + 2 + 1) ('"' :: (s.data ++ ['"', ']'])) = some [s] := by
    rw [rego.readElements.eq_def]
    dsimp only
    rw [readString_plain s [']'] h]
    simp
  simpa using hr

/-- A printed boolean is read back. -/
theorem readBool_formatBool (b : Bool) (rest : List Char) :
    rego.readBool ((fmt.formatBool b).data ++ rest) = some (b, rest) := by
  cases b
  · simp [rego.readBool, rego.expect, fmt.formatBool, List.isPrefixOf]
  · simp [rego.readBool, rego.expect, fmt.formatBool, List.isPrefixOf]

/-- C3 (amended): for every env rule whose rule and strategy contain no
double quote, backslash or control character, the object literal is read as
the pattern, strategy and required flag of the rule. -/
theorem EnvRuleConfig_marshalRego_reads_back (e : EnvRuleConfig)
    (hr : rego.plain e.Rule = true) (hs : rego.plain e.Strategy = true) :
    rego.readEnvRule e.marshalRego = some (e.Rule, e.Strategy, e.Required) := by
  unfold rego.readEnvRule
  rw [EnvRuleConfig_marshalRego_data, expect_append]
  dsimp only
  rw [readString_plain _ _ hr]
  dsimp only
  rw [expect_append]
  dsimp only
  rw [readString_plain _ _ hs]
  dsimp only
  rw [expect_append]
  dsimp only
  rw [readBool_formatBool]
  simp


/-- Witness of C2 (amended): a plain command argument. -/
theorem stringArray_marshalRego_reads_back_witness :
    rego.plain "echo hello" = true ∧
      rego.readStringArray (stringArray.marshalRego ["echo hello"]) = some ["echo hello"] :=
  ⟨by decide, stringArray_marshalRego_reads_back "echo hello" (by decide)⟩

/-- C2 fails as stated: strings are written without escaping. A command
argument with a double quote is read as two strings, one ending in a backslash
or holding a line break makes the literal unreadable, and a backslash followed
by `n` is read as a line break. -/
theorem stringArray_marshalRego_unescaped :
    rego.readStringArray (stringArray.marshalRego ["a\",\"b"]) = some ["a", "b"] ∧
    rego.readStringArray (stringArray.marshalRego ["a\",\"b"]) ≠ some ["a\",\"b"] ∧
    rego.readStringArray (stringArray.marshalRego ["a\\"]) = none ∧
    rego.readStringArray (stringArray.marshalRego ["a\\n"]) = some ["a\n"] ∧
    rego.readStringArray (stringArray.marshalRego ["a\nb"]) = none := by
  decide

/-- Witness of C3 (amended): the env rule `KEY=VALUE`. -/
theorem EnvRuleConfig_marshalRego_reads_back_witness :
    rego.plain "KEY=VALUE" = true ∧ rego.plain "string" = true ∧
      rego.readEnvRule
          (EnvRuleConfig.marshalRego { Strategy := "string", Rule := "KEY=VALUE", Required := true }) =
        some ("KEY=VALUE", "string", true) :=
  ⟨by decide, by decide,
    EnvRuleConfig_marshalRego_reads_back
      { Strategy := "string", Rule := "KEY=VALUE", Required := true } (by decide) (by decide)⟩

/-- C3 fails as stated: a rule with a double quote is cut at the quote when its
pattern is read and makes the object unreadable, and a rule with two
backslashes is read as a rule with one. -/
theorem EnvRuleConfig_marshalRego_unescaped :
    rego.readPattern
        (EnvRuleConfig.marshalRego { Strategy := "string", Rule := "K=\"V", Required := true }) =
      some "K=" ∧
    rego.readEnvRule
        (EnvRuleConfig.marshalRego { Strategy := "string", Rule := "K=\"V", Required := true }) =
      none ∧
    rego.readEnvRule
        (EnvRuleConfig.marshalRego { Strategy := "re2", Rule := "K=\\\\d", Required := false }) =
      some ("K=\\d", "re2", false) := by
  decide

/-- Witness of C4 (amended): two descriptors that differ in the issuer. -/
theorem fragment_marshalRego_injective_witness :
    fragment.quoteFree
        { issuer := "did:web:a", feed := "infra", minimumSVN := "1", includes := ["containers"] } =
      true ∧
    fragment.quoteFree
        { issuer := "did:web:b", feed := "infra", minimumSVN := "1", includes := ["containers"] } =
      true ∧
    fragment.marshalRego
        { issuer := "did:web:a", feed := "infra", minimumSVN := "1", includes := ["containers"] } ≠
      fragment.marshalRego
        { issuer := "did:web:b", feed := "infra", minimumSVN := "1", includes := ["containers"] } :=
  ⟨by decide, by decide,
    fragment_marshalRego_injective
      { issuer := "did:web:a", feed := "infra", minimumSVN := "1", includes := ["containers"] }
      { issuer := "did:web:b", feed := "infra", minimumSVN := "1", includes := ["containers"] }
      (by decide) (by decide) (by decide)⟩

/-- C4 fails as stated: two descriptors that differ in issuer and feed render
as the same object literal, because a double quote in the issuer or feed is
written as it is. -/
theorem fragment_marshalRego_collision :
    ({ issuer := "x\", \"feed\": \"y", feed := "z", minimumSVN := "1", includes := [] } : fragment) ≠
      { issuer := "x", feed := "y\", \"feed\": \"z", minimumSVN := "1", includes := [] } ∧
    fragment.marshalRego
        { issuer := "x\", \"feed\": \"y", feed := "z", minimumSVN := "1", includes := [] } =
      fragment.marshalRego
        { issuer := "x", feed := "y\", \"feed\": \"z", minimumSVN := "1", includes := [] } := by
  decide

/-! ## The exact text of the literals and sections -/

/-- `fmt.Sprintf("[%s]", x)` puts the text between brackets. -/
theorem sprintf_brackets (x : String) : fmt.Sprintf "[%s]" [.string x] = "[" ++ x ++ "]" := by
  apply String.ext
  simp [fmt.Sprintf, fmt.sprintfChars, fmt.formatArg]

/-- `fmt.Sprintf("\"%s\"", x)` puts the text between double quotes. -/
theorem sprintf_quoted (x : String) : fmt.Sprintf "\"%s\"" [.string x] = "\"" ++ x ++ "\"" := by
  apply String.ext
  simp [fmt.Sprintf, fmt.sprintfChars, fmt.formatArg]

/-- The string array literal as text. -/
theorem stringArray_marshalRego_eq (array : List String) :
    stringArray.marshalRego array =
      "[" ++ strings.Join (array.map (fun value => "\"" ++ value ++ "\"")) "," ++ "]" := by
  simp only [stringArray.marshalRego, sprintf_brackets, sprintf_quoted]

/-- A line is appended to the builder. -/
theorem writeLine_eq (builder format : String) (args : List fmt.Arg) :
    writeLine builder format args = builder ++ (fmt.Sprintf format args ++ "\n") := rfl

/-- Appending texts one by one gives the texts written one after another. -/
theorem foldl_append_concat {α : Type} (f : α → String) (xs : List α) (init : String) :
    xs.foldl (fun b x => b ++ f x) init = init ++ strings.concat (xs.map f) := by
  induction xs generalizing init with
  | nil => simp [strings.concat]
  | cons x xs ih =>
    simp only [List.foldl_cons, List.map_cons, strings.concat, ih, String.append_assoc]

/-- The texts of a concatenated list are the texts of its parts. -/
theorem concat_append (xs ys : List String) :
    strings.concat (xs ++ ys) = strings.concat xs ++ strings.concat ys := by
  induction xs with
  | nil => simp [strings.concat]
  | cons x xs ih =>
    rw [List.cons_append]
    simp only [strings.concat]
    rw [ih, String.append_assoc]

/-- C15: the env rule literal is `pattern`, `strategy`, `required` in that
order, each with its own field, and the env rule array literal is the
literals of the rules in input order joined by `,` between brackets (`[]` for
no rules). -/
theorem EnvRuleConfig_marshalRego_exact (e : EnvRuleConfig) (array : List EnvRuleConfig) :
    e.marshalRego =
        "\x7b\"pattern\": \"" ++ e.Rule ++ "\", \"strategy\": \"" ++ e.Strategy ++
          "\", \"required\": " ++ (if e.Required then "true" else "false") ++ "\x7d" ∧
      envRuleArray.marshalRego array =
        "[" ++ strings.Join (array.map EnvRuleConfig.marshalRego) "," ++ "]" ∧
      envRuleArray.marshalRego [] = "[]" := by
  refine ⟨?_, ?_, ?_⟩
  · apply String.ext
    rw [EnvRuleConfig_marshalRego_data]
    simp [String.data_append, fmt.formatBool]
  · exact sprintf_brackets _
  · decide

/-- C16: the mount literal is `destination`, `options`, `source`, `type` in
that order, each key once and with its own field. -/
theorem mountInternal_marshalRego_exact (m : mountInternal) :
    m.marshalRego =
      "\x7b\"destination\": \"" ++ m.Destination ++ "\", \"options\": " ++
        stringArray.marshalRego m.Options ++ ", \"source\": \"" ++ m.Source ++
        "\", \"type\": \"" ++ m.Type_ ++ "\"\x7d" := by
  apply String.ext
  simp [mountInternal.marshalRego, fmt.Sprintf, fmt.sprintfChars, fmt.formatArg,
    String.data_append]

/-- The external process literal as text. -/
theorem externalProcess_marshalRego_eq (p : externalProcess) :
    p.marshalRego =
      "\x7b\"command\": " ++ stringArray.marshalRego p.command ++ ", \"env_rules\": " ++
        envRuleArray.marshalRego p.envRules ++ ", \"working_dir\": \"" ++ p.workingDir ++
        "\", \"allow_stdio_access\": " ++ (if p.allowStdioAccess then "true" else "false") ++
        "\x7d" := by
  apply String.ext
  simp [externalProcess.marshalRego, fmt.Sprintf, fmt.sprintfChars, fmt.formatArg,
    String.data_append, fmt.formatBool]

/-- The line written for one external process or fragment literal. -/
theorem writeLine_literal (builder literal : String) :
    writeLine builder "%s%s," [.string indentUsing, .string literal] =
      builder ++ ("    " ++ literal ++ ",\n") := by
  rw [writeLine_eq]
  congr 1
  apply String.ext
  simp [fmt.Sprintf, fmt.sprintfChars, fmt.formatArg, String.data_append, indentUsing]

/-- A line without operands is written as it is. -/
theorem writeLine_text (builder : String) :
    writeLine builder "external_processes := [" [] = builder ++ "external_processes := [\n" ∧
    writeLine builder "fragments := [" [] = builder ++ "fragments := [\n" ∧
    writeLine builder "containers := [" [] = builder ++ "containers := [\n" ∧
    writeLine builder "]" [] = builder ++ "]\n" := by
  refine ⟨?_, ?_, ?_, ?_⟩ <;> rw [writeLine_eq] <;> congr 1

/-- C17: the external process literal is `command`, `env_rules`,
`working_dir`, `allow_stdio_access` in that order, and for a non-empty list
`addExternalProcesses` writes the opening line, one indented literal followed
by a comma per process in input order, and the closing line. -/
theorem externalProcess_marshalRego_exact (p : externalProcess) (builder : String)
    (processes : List externalProcess) (h : processes ≠ []) :
    p.marshalRego =
        "\x7b\"command\": " ++ stringArray.marshalRego p.command ++ ", \"env_rules\": " ++
          envRuleArray.marshalRego p.envRules ++ ", \"working_dir\": \"" ++ p.workingDir ++
          "\", \"allow_stdio_access\": " ++ (if p.allowStdioAccess then "true" else "false") ++
          "\x7d" ∧
      addExternalProcesses builder processes =
        builder ++ "external_processes := [\n" ++
          strings.concat (processes.map (fun q => "    " ++ q.marshalRego ++ ",\n")) ++ "]\n" := by
  refine ⟨externalProcess_marshalRego_eq p, ?_⟩
  have hlen : ¬ processes.length = 0 := by
    intro h0
    exact h (List.length_eq_zero.mp h0)
  simp only [addExternalProcesses, hlen, if_false, writeLine_literal, (writeLine_text _).1,
    (writeLine_text _).2.2.2, foldl_append_concat]

/-- C18: the fragment literal is `issuer`, `feed`, `minimum_svn`, `includes`
in that order, each with its own field; the minimum SVN is written between
double quotes and the includes are the string array literal of the list. -/
theorem fragment_marshalRego_exact (f : fragment) :
    f.marshalRego =
      "\x7b\"issuer\": \"" ++ f.issuer ++ "\", \"feed\": \"" ++ f.feed ++
        "\", \"minimum_svn\": \"" ++ f.minimumSVN ++ "\", \"includes\": " ++
        ("[" ++ strings.Join (f.includes.map (fun value => "\"" ++ value ++ "\"")) "," ++ "]") ++
        "\x7d" := by
  rw [← stringArray_marshalRego_eq]
  apply String.ext
  rw [fragment_marshalRego_data]
  simp [String.data_append]

/-- C12: for a non-empty list `addFragments` writes the line `fragments := [`,
one line per fragment in input order (four spaces, the literal, a comma), and
the line `]`; for a list made of two parts the lines are those of the first
part followed by those of the second. -/
theorem addFragments_lines (builder : String) (fragments more : List fragment)
    (h : fragments ≠ []) :
    addFragments builder fragments =
        builder ++ "fragments := [\n" ++
          strings.concat (fragments.map (fun f => "    " ++ f.marshalRego ++ ",\n")) ++ "]\n" ∧
      addFragments builder (fragments ++ more) =
        builder ++ "fragments := [\n" ++
          strings.concat (fragments.map (fun f => "    " ++ f.marshalRego ++ ",\n")) ++
          strings.concat (more.map (fun f => "    " ++ f.marshalRego ++ ",\n")) ++ "]\n" := by
  have key : ∀ fs : List fragment, fs ≠ [] →
      addFragments builder fs =
        builder ++ "fragments := [\n" ++
          strings.concat (fs.map (fun f => "    " ++ f.marshalRego ++ ",\n")) ++ "]\n" := by
    intro fs hfs
    have hlen : ¬ fs.length = 0 := by
      intro h0
      exact hfs (List.length_eq_zero.mp h0)
    simp only [addFragments, hlen, if_false, writeLine_literal, (writeLine_text _).2.1,
      (writeLine_text _).2.2.2, foldl_append_concat]
  refine ⟨key fragments h, ?_⟩
  rw [key (fragments ++ more) (by simp [h]), List.map_append, concat_append]
  simp only [String.append_assoc]

/-- A line written to a builder is the builder followed by the line written
to an empty builder. -/
theorem writeLine_builder (builder format : String) (args : List fmt.Arg) :
    writeLine builder format args = builder ++ writeLine "" format args := by
  simp only [writeLine_eq, String.empty_append]

/-- The block of a container written to a builder is the builder followed by
the block written to an empty builder. -/
theorem writeContainer_builder (builder : String) (container : securityPolicyContainer)
    (indent : String) :
    writeContainer builder container indent = builder ++ writeContainer "" container indent := by
  simp only [writeContainer, writeCommand, writeEnvRules, writeLayers, writeMounts,
    writeExecProcesses, writeSignals, writeLine_eq, String.append_assoc, String.empty_append]

/-- Writing the blocks one by one gives the blocks one after another. -/
theorem foldl_writeContainer (containers : List securityPolicyContainer) (builder : String) :
    containers.foldl (fun b container => writeContainer b container indentUsing) builder =
      builder ++ strings.concat
        (containers.map (fun container => writeContainer "" container indentUsing)) := by
  have h : (fun (b : String) (container : securityPolicyContainer) =>
      writeContainer b container indentUsing) =
      (fun b container => b ++ writeContainer "" container indentUsing) := by
    funext b container
    exact writeContainer_builder b container indentUsing
  rw [h, foldl_append_concat]

/-- C13: for a non-empty list `addContainers` writes the opening line, the
block of each container in input order, and the closing line; there are as
many blocks as list entries, and a list holding the same container twice has
its block twice. -/
theorem addContainers_blocks (builder : String) (containers : List securityPolicyContainer)
    (h : containers ≠ []) (c : securityPolicyContainer) :
    addContainers builder containers =
        builder ++ "containers := [\n" ++
          strings.concat (containers.map (fun x => writeContainer "" x indentUsing)) ++ "]\n" ∧
      (containers.map (fun x => writeContainer "" x indentUsing)).length = containers.length ∧
      addContainers builder [c, c] =
        builder ++ "containers := [\n" ++ writeContainer "" c indentUsing ++
          writeContainer "" c indentUsing ++ "]\n" := by
  have key : ∀ cs : List securityPolicyContainer, cs ≠ [] →
      addContainers builder cs =
        builder ++ "containers := [\n" ++
          strings.concat (cs.map (fun x => writeContainer "" x indentUsing)) ++ "]\n" := by
    intro cs hcs
    have hlen : ¬ cs.length = 0 := by
      intro h0
      exact hcs (List.length_eq_zero.mp h0)
    simp only [addContainers, hlen, if_false, (writeLine_text _).2.2.1,
      (writeLine_text _).2.2.2, foldl_writeContainer]
  refine ⟨key containers h, List.length_map _ _, ?_⟩
  rw [key [c, c] (by simp)]
  simp only [List.map, strings.concat, String.append_assoc, String.append_empty]

/-- Witness of C13: two identical containers. -/
theorem addContainers_blocks_witness :
    addContainers "" [Container.toInternal sampleContainer, Container.toInternal sampleContainer] =
        "" ++ "containers := [\n" ++
          strings.concat
            ([Container.toInternal sampleContainer, Container.toInternal sampleContainer].map
              (fun x => writeContainer "" x indentUsing)) ++ "]\n" ∧
      ([Container.toInternal sampleContainer, Container.toInternal sampleContainer].map
          (fun x => writeContainer "" x indentUsing)).length = 2 ∧
      addContainers "" [Container.toInternal sampleContainer, Container.toInternal sampleContainer] =
        "" ++ "containers := [\n" ++
          writeContainer "" (Container.toInternal sampleContainer) indentUsing ++
          writeContainer "" (Container.toInternal sampleContainer) indentUsing ++ "]\n" :=
  addContainers_blocks ""
    [Container.toInternal sampleContainer, Container.toInternal sampleContainer] (by simp)
    (Container.toInternal sampleContainer)

/-- Witness of C12: one fragment, then one more. -/
theorem addFragments_lines_witness :
    addFragments ""
        [{ issuer := "did:web:a", feed := "infra", minimumSVN := "1", includes := ["containers"] }] =
      "fragments := [\n    \x7b\"issuer\": \"did:web:a\", \"feed\": \"infra\", \"minimum_svn\": \"1\", \"includes\": [\"containers\"]\x7d,\n]\n" :=
  ((addFragments_lines ""
    [{ issuer := "did:web:a", feed := "infra", minimumSVN := "1", includes := ["containers"] }]
    [] (by simp)).1).trans (by decide)

/-- Witness of C17: one external process. -/
theorem externalProcess_marshalRego_exact_witness :
    addExternalProcesses ""
        [{ command := ["ls", "-l"], envRules := [], workingDir := "/", allowStdioAccess := true }] =
      "external_processes := [\n    \x7b\"command\": [\"ls\",\"-l\"], \"env_rules\": [], \"working_dir\": \"/\", \"allow_stdio_access\": true\x7d,\n]\n" :=
  ((externalProcess_marshalRego_exact
    { command := ["ls", "-l"], envRules := [], workingDir := "/", allowStdioAccess := true } ""
    [{ command := ["ls", "-l"], envRules := [], workingDir := "/", allowStdioAccess := true }]
    (by simp)).2).trans (by decide)

/-! ## Substitution into the template -/

/-- A text that starts a longer text and is no longer than its first part
starts that first part. -/
theorem isPrefixOf_of_append (old x y : List Char) (h : old.isPrefixOf (x ++ y) = true)
    (hlen : old.length ≤ x.length) : old.isPrefixOf x = true := by
  rw [List.isPrefixOf_iff_prefix] at h ⊢
  exact List.prefix_of_prefix_length_le h (List.prefix_append x y) hlen

/-- When `old` does not occur in the prefix followed by `old` without its last
character, the first occurrence of `old` in `pre ++ old ++ suf` is the one
after the prefix, and it is the one replaced. -/
theorem replaceFirstChars_at (old new pre suf : List Char) (hold : old ≠ [])
    (h : strings.containsChars old (pre ++ old.dropLast) = false) :
    strings.replaceFirstChars old new (pre ++ old ++ suf) = pre ++ new ++ suf := by
  induction pre with
  | nil =>
    cases old with
    | nil => exact absurd rfl hold
    | cons c cs =>
      have hp : (c :: cs).isPrefixOf (c :: cs ++ suf) = true := by
        rw [List.isPrefixOf_iff_prefix]
        exact List.prefix_append _ _
      simp only [List.nil_append, List.cons_append] at hp ⊢
      rw [strings.replaceFirstChars, if_pos hp]
      have hd : (c :: (cs ++ suf)).drop (c :: cs).length = suf := by
        simp
      rw [hd]
  | cons p pre ih =>
    simp only [List.cons_append, strings.containsChars, Bool.or_eq_false_iff] at h
    have hnp : ¬ old.isPrefixOf (p :: (pre ++ old ++ suf)) = true := by
      intro hp
      have hsplit : p :: (pre ++ old ++ suf) =
          (p :: (pre ++ old.dropLast)) ++ (old.drop (old.length - 1) ++ suf) := by
        have hdl : old.dropLast ++ old.drop (old.length - 1) = old := by
          rw [List.dropLast_eq_take]
          exact List.take_append_drop _ _
        simp only [List.cons_append, List.append_assoc, List.cons.injEq, true_and]
        rw [← List.append_assoc old.dropLast, hdl]
      rw [hsplit] at hp
      have hlen : old.length ≤ (p :: (pre ++ old.dropLast)).length := by
        simp only [List.length_cons, List.length_append, List.length_dropLast]
        omega
      have := isPrefixOf_of_append old _ _ hp hlen
      exact Bool.noConfusion (h.1.symm.trans this)
    simp only [List.cons_append]
    rw [strings.replaceFirstChars, if_neg hnp, ← List.cons_append, ← List.cons_append]
    have := ih h.2
    simp only [List.append_assoc] at this ⊢
    rw [List.cons_append, this]

/-- C14 (amended): for a template `prefix ++ "##OBJECTS##" ++ suffix` in which
the placeholder does not occur in `prefix ++ "##OBJECTS#"` (the placeholder
after the prefix is the first one of the template), the document is
`prefix ++ block ++ suffix`, whatever the suffix and the block contain. -/
theorem marshalRego_substitutes (p : securityPolicyInternal) (pre suf : String)
    (h : strings.Contains (pre ++ "##OBJECTS#") "##OBJECTS##" = false) :
    p.marshalRego (pre ++ "##OBJECTS##" ++ suf) = pre ++ p.objects ++ suf := by
  apply String.ext
  simp only [securityPolicyInternal.marshalRego, strings.Replace1, String.data_append]
  have hdl : "##OBJECTS##".data.dropLast = "##OBJECTS#".data := by decide
  refine replaceFirstChars_at "##OBJECTS##".data p.objects.data pre.data suf.data (by decide) ?_
  rw [hdl]
  simpa only [strings.Contains, String.data_append] using h

/-- Witness of C14 (amended): a template with a second placeholder in a
comment, and the policy with no sections and every toggle off. -/
theorem marshalRego_substitutes_witness :
    strings.Contains ("package policy\n\n" ++ "##OBJECTS#") "##OBJECTS##" = false ∧
      securityPolicyInternal.marshalRego
          ("package policy\n\n" ++ "##OBJECTS##" ++ "\n# ##OBJECTS## stays\n")
          { Containers := [], ExternalProcesses := [], Fragments := [],
            AllowPropertiesAccess := false, AllowDumpStacks := false,
            AllowRuntimeLogging := false, AllowEnvironmentVariableDropping := false,
            AllowUnencryptedScratch := false } =
        "package policy\n\n" ++
          securityPolicyInternal.objects
            { Containers := [], ExternalProcesses := [], Fragments := [],
              AllowPropertiesAccess := false, AllowDumpStacks := false,
              AllowRuntimeLogging := false, AllowEnvironmentVariableDropping := false,
              AllowUnencryptedScratch := false } ++ "\n# ##OBJECTS## stays\n" :=
  ⟨by decide, marshalRego_substitutes _ "package policy\n\n" "\n# ##OBJECTS## stays\n" (by decide)⟩

set_option maxRecDepth 8000 in
/-- C14 fails as stated: the prefix `##OBJECTS#` does not contain the
placeholder, yet followed by the placeholder it forms an earlier occurrence,
and that one is replaced. -/
theorem marshalRego_substitutes_overlap :
    strings.Contains "##OBJECTS#" "##OBJECTS##" = false ∧
      securityPolicyInternal.marshalRego ("##OBJECTS#" ++ "##OBJECTS##" ++ "")
          { Containers := [], ExternalProcesses := [], Fragments := [],
            AllowPropertiesAccess := false, AllowDumpStacks := false,
            AllowRuntimeLogging := false, AllowEnvironmentVariableDropping := false,
            AllowUnencryptedScratch := false } =
        securityPolicyInternal.objects
            { Containers := [], ExternalProcesses := [], Fragments := [],
              AllowPropertiesAccess := false, AllowDumpStacks := false,
              AllowRuntimeLogging := false, AllowEnvironmentVariableDropping := false,
              AllowUnencryptedScratch := false } ++ "#OBJECTS##" ∧
      securityPolicyInternal.marshalRego ("##OBJECTS#" ++ "##OBJECTS##" ++ "")
          { Containers := [], ExternalProcesses := [], Fragments := [],
            AllowPropertiesAccess := false, AllowDumpStacks := false,
            AllowRuntimeLogging := false, AllowEnvironmentVariableDropping := false,
            AllowUnencryptedScratch := false } ≠
        "##OBJECTS#" ++
          securityPolicyInternal.objects
            { Containers := [], ExternalProcesses := [], Fragments := [],
              AllowPropertiesAccess := false, AllowDumpStacks := false,
              AllowRuntimeLogging := false, AllowEnvironmentVariableDropping := false,
              AllowUnencryptedScratch := false } ++ "" := by
  decide

/-! ## The layers line -/

/-- Reading the joined quoted elements of a non-empty list of plain strings,
followed by the closing bracket, gives the list back. -/
theorem readElements_join (xs : List String) (hne : xs ≠ [])
    (hp : xs.all rego.plain = true) (fuel : Nat) (hfuel : xs.length ≤ fuel) :
    rego.readElements fuel
        ((strings.Join (xs.map (fun value => fmt.Sprintf "\"%s\"" [.string value])) ",").data ++
          [']']) = some xs := by
  induction xs generalizing fuel with
  | nil => exact absurd rfl hne
  | cons x xs ih =>
    simp only [List.all_cons, Bool.and_eq_true] at hp
    cases fuel with
    | zero => simp at hfuel
    | succ fuel =>
      cases xs with
      | nil =>
        rw [join_quoted_single, rego.readElements.eq_def]
        dsimp only
        rw [List.cons_append, List.append_assoc, List.singleton_append,
          readString_plain x [']'] hp.1]
        simp
      | cons y ys =>
        rw [join_quoted_cons, rego.readElements.eq_def]
        dsimp only
        rw [List.cons_append, List.append_assoc, List.cons_append, List.cons_append,
          readString_plain x _ hp.1]
        show Option.map (fun l => x :: l) (rego.readElements fuel _) = _
        rw [ih (by simp) hp.2 fuel (by simpa using hfuel)]
        rfl

/-- The joined text has at least as many characters as the list has
elements. -/
theorem length_le_join_quoted (xs : List String) :
    xs.length ≤
      (strings.Join (xs.map (fun value => fmt.Sprintf "\"%s\"" [.string value])) ",").data.length := by
  induction xs with
  | nil => simp
  | cons x xs ih =>
    cases xs with
    | nil =>
      rw [join_quoted_single]
      simp
    | cons y ys =>
      rw [join_quoted_cons]
      simp only [List.length_cons, List.length_append] at ih ⊢
      omega

/-- The array literal of a list of plain strings is read as that list. -/
theorem readStringArray_marshalRego (xs : List String) (hp : xs.all rego.plain = true) :
    rego.readStringArray (stringArray.marshalRego xs) = some xs := by
  cases xs with
  | nil => decide
  | cons x xs =>
    unfold rego.readStringArray
    rw [stringArray_marshalRego_data]
    have hq : ∃ rest, (strings.Join ((x :: xs).map
        (fun value => fmt.Sprintf "\"%s\"" [.string value])) ",").data = '"' :: rest := by
      cases xs with
      | nil => exact ⟨_, join_quoted_single x⟩
      | cons y ys => exact ⟨_, join_quoted_cons x y ys⟩
    obtain ⟨rest, hrest⟩ := hq
    have hlen := length_le_join_quoted (x :: xs)
    have hread := readElements_join (x :: xs) (by simp) hp
      ((strings.Join ((x :: xs).map
        (fun value => fmt.Sprintf "\"%s\"" [.string value])) ",").data ++ [']']).length
      (by simp only [List.length_append]; omega)
    rw [hrest] at hread ⊢
    simpa using hread

/-- C11: `writeLayers` appends one line, the indent, `"layers": `, the array
literal and a comma. The literal is the layers in input order, each between
double quotes, joined by `,`: its i-th quoted element is the i-th layer and
there are as many as layers; for layers made of plain characters (such as
content hashes) the literal is read back as exactly the input list. -/
theorem writeLayers_in_order (builder : String) (layers : List String) (indent : String) :
    writeLayers builder layers indent =
        builder ++ (indent ++ "\"layers\": " ++
          ("[" ++ strings.Join (layers.map (fun layer => "\"" ++ layer ++ "\"")) "," ++ "]") ++
          ",\n") ∧
      (layers.map (fun layer => "\"" ++ layer ++ "\"")).length = layers.length ∧
      (∀ i : Nat, (layers.map (fun layer => "\"" ++ layer ++ "\""))[i]? =
        (layers[i]?).map (fun layer => "\"" ++ layer ++ "\"")) ∧
      (layers.all rego.plain = true →
        rego.readStringArray (stringArray.marshalRego layers) = some layers) := by
  refine ⟨?_, List.length_map _ _, fun i => List.getElem?_map _ _ _, readStringArray_marshalRego layers⟩
  rw [← stringArray_marshalRego_eq]
  simp only [writeLayers, writeLine_eq]
  congr 1
  apply String.ext
  simp [fmt.Sprintf, fmt.sprintfChars, fmt.formatArg, String.data_append]

/-- Witness of C11: three layers, two of them equal. -/
theorem writeLayers_in_order_witness :
    writeLayers "" ["1b80f1", "e769d7", "1b80f1"] "    " =
        "    \"layers\": [\"1b80f1\",\"e769d7\",\"1b80f1\"],\n" ∧
      rego.readStringArray (stringArray.marshalRego ["1b80f1", "e769d7", "1b80f1"]) =
        some ["1b80f1", "e769d7", "1b80f1"] :=
  ⟨((writeLayers_in_order "" ["1b80f1", "e769d7", "1b80f1"] "    ").1).trans (by decide),
    (writeLayers_in_order "" ["1b80f1", "e769d7", "1b80f1"] "    ").2.2.2 (by decide)⟩

/-! ## Arrays, exec processes and the lines of a container -/

/-- C24: the string array literal is the elements in input order, each
between double quotes, joined by `,` without spaces, between brackets, and
`[]` for the empty list; the signal array literal is the signal numbers in
decimal, unquoted, in input order, joined by `,`, between brackets. -/
theorem array_marshalRego_exact (array : List String) (signals : List Int) :
    stringArray.marshalRego array =
        "[" ++ strings.Join (array.map (fun value => "\"" ++ value ++ "\"")) "," ++ "]" ∧
      stringArray.marshalRego [] = "[]" ∧
      signalArray.marshalRego signals =
        "[" ++ strings.Join (signals.map (fun value => toString value)) "," ++ "]" ∧
      signalArray.marshalRego [9, 15, -1] = "[9,15,-1]" := by
  refine ⟨stringArray_marshalRego_eq array, by decide, ?_, by decide⟩
  have h : (fun (value : Int) => fmt.Sprintf "%d" [.int value]) = fun value => toString value := by
    funext value
    apply String.ext
    simp [fmt.Sprintf, fmt.sprintfChars, fmt.formatArg]
  simp only [signalArray.marshalRego, sprintf_brackets, h]

/-- C25: on lists of strings without double quote, equal array literals mean
equal lists. -/
theorem stringArray_marshalRego_injective_quoteFree (a b : List String)
    (ha : a.all quoteFree = true) (hb : b.all quoteFree = true) :
    stringArray.marshalRego a = stringArray.marshalRego b ↔ a = b := by
  constructor
  · intro h
    apply stringArray_marshalRego_injective a b ha hb
    rw [h]
  · intro h
    rw [h]

/-- Witness of C25: two quote-free lists that differ only in how the same
characters are split into elements. -/
theorem stringArray_marshalRego_injective_quoteFree_witness :
    ["ash", "-c"].all quoteFree = true ∧ ["ash,-c"].all quoteFree = true ∧
      stringArray.marshalRego ["ash", "-c"] ≠ stringArray.marshalRego ["ash,-c"] :=
  ⟨by decide, by decide,
    (stringArray_marshalRego_injective_quoteFree ["ash", "-c"] ["ash,-c"] (by decide)
      (by decide)).not.mpr (by decide)⟩

/-- The exec process literal as text. -/
theorem containerExecProcess_marshalRego_eq (p : containerExecProcess) :
    p.marshalRego =
      "\x7b\"command\": " ++ stringArray.marshalRego p.Command ++ ", \"signals\": " ++
        signalArray.marshalRego p.Signals ++ "\x7d" := by
  apply String.ext
  simp [containerExecProcess.marshalRego, fmt.Sprintf, fmt.sprintfChars, fmt.formatArg,
    String.data_append]

/-- The lines of a container that hold one operand after the indent. -/
theorem writeLine_field (builder indent array : String) :
    writeLine builder "%s\"command\": %s," [.string indent, .string array] =
        builder ++ (indent ++ "\"command\": " ++ array ++ ",\n") ∧
      writeLine builder "%s\"env_rules\": %s," [.string indent, .string array] =
        builder ++ (indent ++ "\"env_rules\": " ++ array ++ ",\n") ∧
      writeLine builder "%s\"layers\": %s," [.string indent, .string array] =
        builder ++ (indent ++ "\"layers\": " ++ array ++ ",\n") ∧
      writeLine builder "%s\"mounts\": [%s]," [.string indent, .string array] =
        builder ++ (indent ++ "\"mounts\": [" ++ array ++ "],\n") ∧
      writeLine builder "%s\"exec_processes\": [%s]," [.string indent, .string array] =
        builder ++ (indent ++ "\"exec_processes\": [" ++ array ++ "],\n") ∧
      writeLine builder "%s\"signals\": %s," [.string indent, .string array] =
        builder ++ (indent ++ "\"signals\": " ++ array ++ ",\n") ∧
      writeLine builder "%s\"working_dir\": \"%s\"," [.string indent, .string array] =
        builder ++ (indent ++ "\"working_dir\": \"" ++ array ++ "\",\n") := by
  refine ⟨?_, ?_, ?_, ?_, ?_, ?_, ?_⟩ <;>
    (rw [writeLine_eq]
     congr 1
     apply String.ext
     simp [fmt.Sprintf, fmt.sprintfChars, fmt.formatArg, String.data_append])

/-- The lines of a container that hold a boolean, and its braces. -/
theorem writeLine_flag (builder indent : String) (flag : Bool) :
    writeLine builder "%s\"allow_elevated\": %v," [.string indent, .bool flag] =
        builder ++ (indent ++ "\"allow_elevated\": " ++ (if flag then "true" else "false") ++
          ",\n") ∧
      writeLine builder "%s\"allow_stdio_access\": %t" [.string indent, .bool flag] =
        builder ++ (indent ++ "\"allow_stdio_access\": " ++ (if flag then "true" else "false") ++
          "\n") ∧
      writeLine builder "%s\x7b" [.string indent] = builder ++ (indent ++ "\x7b\n") ∧
      writeLine builder "%s\x7d," [.string indent] = builder ++ (indent ++ "\x7d,\n") := by
  refine ⟨?_, ?_, ?_, ?_⟩ <;>
    (rw [writeLine_eq]
     congr 1
     apply String.ext
     cases flag <;>
       simp [fmt.Sprintf, fmt.sprintfChars, fmt.formatArg, String.data_append, fmt.formatBool])

/-- C30: the exec process literal is `command` then `signals`, and
`writeExecProcesses` writes one line, the indent, `"exec_processes": [`, the
literals in input order joined by `,`, and `],`; with no exec process the
line is `"exec_processes": [],`. -/
theorem writeExecProcesses_exact (p : containerExecProcess) (builder : String)
    (execProcesses : List containerExecProcess) (indent : String) :
    p.marshalRego =
        "\x7b\"command\": " ++ stringArray.marshalRego p.Command ++ ", \"signals\": " ++
          signalArray.marshalRego p.Signals ++ "\x7d" ∧
      writeExecProcesses builder execProcesses indent =
        builder ++ (indent ++ "\"exec_processes\": [" ++
          strings.Join (execProcesses.map containerExecProcess.marshalRego) "," ++ "],\n") ∧
      writeExecProcesses builder [] indent = builder ++ (indent ++ "\"exec_processes\": [],\n") := by
  have key : ∀ ps : List containerExecProcess,
      writeExecProcesses builder ps indent =
        builder ++ (indent ++ "\"exec_processes\": [" ++
          strings.Join (ps.map containerExecProcess.marshalRego) "," ++ "],\n") := by
    intro ps
    simp only [writeExecProcesses, (writeLine_field _ _ _).2.2.2.2.1]
  refine ⟨containerExecProcess_marshalRego_eq p, key execProcesses, ?_⟩
  rw [key []]
  simp only [List.map, strings.Join, String.append_assoc, String.append_empty]
  congr 1

/-- C26: `writeContainer` writes eleven lines: the opening brace at the
indent; one level deeper `"command"`, `"env_rules"`, `"layers"`, `"mounts"`,
`"exec_processes"`, `"signals"`, `"allow_elevated"`, `"working_dir"`, each
ending with a comma, and `"allow_stdio_access"` without a comma; the closing
brace with a comma at the indent. The two flags print their own field. -/
theorem writeContainer_lines (builder : String) (container : securityPolicyContainer)
    (indent : String) :
    writeContainer builder container indent =
        builder ++ strings.concat
          ([indent ++ "\x7b",
            indent ++ "    " ++ "\"command\": " ++ stringArray.marshalRego container.Command ++ ",",
            indent ++ "    " ++ "\"env_rules\": " ++
              envRuleArray.marshalRego container.EnvRules ++ ",",
            indent ++ "    " ++ "\"layers\": " ++ stringArray.marshalRego container.Layers ++ ",",
            indent ++ "    " ++ "\"mounts\": [" ++
              strings.Join (container.Mounts.map mountInternal.marshalRego) "," ++ "],",
            indent ++ "    " ++ "\"exec_processes\": [" ++
              strings.Join (container.ExecProcesses.map containerExecProcess.marshalRego) "," ++
              "],",
            indent ++ "    " ++ "\"signals\": " ++ signalArray.marshalRego container.Signals ++ ",",
            indent ++ "    " ++ "\"allow_elevated\": " ++
              (if container.AllowElevated then "true" else "false") ++ ",",
            indent ++ "    " ++ "\"working_dir\": \"" ++ container.WorkingDir ++ "\",",
            indent ++ "    " ++ "\"allow_stdio_access\": " ++
              (if container.AllowStdioAccess then "true" else "false"),
            indent ++ "\x7d,"].map (fun line => line ++ "\n")) ∧
      ([indent ++ "\x7b",
        indent ++ "    " ++ "\"command\": " ++ stringArray.marshalRego container.Command ++ ",",
        indent ++ "    " ++ "\"env_rules\": " ++ envRuleArray.marshalRego container.EnvRules ++ ",",
        indent ++ "    " ++ "\"layers\": " ++ stringArray.marshalRego container.Layers ++ ",",
        indent ++ "    " ++ "\"mounts\": [" ++
          strings.Join (container.Mounts.map mountInternal.marshalRego) "," ++ "],",
        indent ++ "    " ++ "\"exec_processes\": [" ++
          strings.Join (container.ExecProcesses.map containerExecProcess.marshalRego) "," ++ "],",
        indent ++ "    " ++ "\"signals\": " ++ signalArray.marshalRego container.Signals ++ ",",
        indent ++ "    " ++ "\"allow_elevated\": " ++
          (if container.AllowElevated then "true" else "false") ++ ",",
        indent ++ "    " ++ "\"working_dir\": \"" ++ container.WorkingDir ++ "\",",
        indent ++ "    " ++ "\"allow_stdio_access\": " ++
          (if container.AllowStdioAccess then "true" else "false"),
        indent ++ "\x7d,"].length = 11) := by
  refine ⟨?_, rfl⟩
  have hi : indentUsing = "    " := rfl
  simp only [writeContainer, writeCommand, writeEnvRules, writeLayers, writeMounts,
    writeExecProcesses, writeSignals, (writeLine_field _ _ _).1, (writeLine_field _ _ _).2.1,
    (writeLine_field _ _ _).2.2.1, (writeLine_field _ _ _).2.2.2.1,
    (writeLine_field _ _ _).2.2.2.2.1, (writeLine_field _ _ _).2.2.2.2.2.1,
    (writeLine_field _ _ _).2.2.2.2.2.2, (writeLine_flag _ _ _).1, (writeLine_flag _ _ _).2.1,
    (writeLine_flag _ _ true).2.2.1, (writeLine_flag _ _ true).2.2.2, hi, List.map,
    strings.concat, String.append_assoc, String.append_empty]
  apply String.ext
  simp [String.data_append]

/-! ## The sections of a policy and of a fragment -/

/-- The `fragments` section written to a builder is the builder followed by
the section. -/
theorem addFragments_builder (builder : String) (fragments : List fragment) :
    addFragments builder fragments = builder ++ addFragments "" fragments := by
  unfold addFragments
  split
  · simp
  · simp only [writeLine_literal, (writeLine_text _).2.1, (writeLine_text _).2.2.2,
      foldl_append_concat, String.append_assoc, String.empty_append]

/-- The `containers` section written to a builder is the builder followed by
the section. -/
theorem addContainers_builder (builder : String) (containers : List securityPolicyContainer) :
    addContainers builder containers = builder ++ addContainers "" containers := by
  unfold addContainers
  split
  · simp
  · simp only [(writeLine_text _).2.2.1, (writeLine_text _).2.2.2, foldl_writeContainer,
      String.append_assoc, String.empty_append]

/-- The `external_processes` section written to a builder is the builder
followed by the section. -/
theorem addExternalProcesses_builder (builder : String) (processes : List externalProcess) :
    addExternalProcesses builder processes = builder ++ addExternalProcesses "" processes := by
  unfold addExternalProcesses
  split
  · simp
  · simp only [writeLine_literal, (writeLine_text _).1, (writeLine_text _).2.2.2,
      foldl_append_concat, String.append_assoc, String.empty_append]

/-- The five toggle lines as text. -/
theorem writeLine_toggle (builder : String) (flag : Bool) :
    writeLine builder "allow_properties_access := %v" [.bool flag] =
        builder ++ ("allow_properties_access := " ++ (if flag then "true" else "false") ++ "\n") ∧
      writeLine builder "allow_dump_stacks := %v" [.bool flag] =
        builder ++ ("allow_dump_stacks := " ++ (if flag then "true" else "false") ++ "\n") ∧
      writeLine builder "allow_runtime_logging := %v" [.bool flag] =
        builder ++ ("allow_runtime_logging := " ++ (if flag then "true" else "false") ++ "\n") ∧
      writeLine builder "allow_environment_variable_dropping := %v" [.bool flag] =
        builder ++ ("allow_environment_variable_dropping := " ++
          (if flag then "true" else "false") ++ "\n") ∧
      writeLine builder "allow_unencrypted_scratch := %t" [.bool flag] =
        builder ++ ("allow_unencrypted_scratch := " ++ (if flag then "true" else "false") ++
          "\n") := by
  refine ⟨?_, ?_, ?_, ?_, ?_⟩ <;>
    (rw [writeLine_eq]
     congr 1
     apply String.ext
     cases flag <;>
       simp [fmt.Sprintf, fmt.sprintfChars, fmt.formatArg, String.data_append, fmt.formatBool])

/-- The generated block: the three sections, then the five toggle lines. -/
theorem objects_eq (p : securityPolicyInternal) :
    p.objects =
      addFragments "" p.Fragments ++ (addContainers "" p.Containers ++
        (addExternalProcesses "" p.ExternalProcesses ++
          (("allow_properties_access := " ++
              (if p.AllowPropertiesAccess then "true" else "false") ++ "\n") ++
            (("allow_dump_stacks := " ++ (if p.AllowDumpStacks then "true" else "false") ++
                "\n") ++
              (("allow_runtime_logging := " ++
                  (if p.AllowRuntimeLogging then "true" else "false") ++ "\n") ++
                (("allow_environment_variable_dropping := " ++
                    (if p.AllowEnvironmentVariableDropping then "true" else "false") ++ "\n") ++
                  ("allow_unencrypted_scratch := " ++
                    (if p.AllowUnencryptedScratch then "true" else "false") ++ "\n"))))))) := by
  simp only [securityPolicyInternal.objects, (writeLine_toggle _ _).1, (writeLine_toggle _ _).2.1,
    (writeLine_toggle _ _).2.2.1, (writeLine_toggle _ _).2.2.2.1, (writeLine_toggle _ _).2.2.2.2]
  rw [addExternalProcesses_builder, addContainers_builder]
  simp only [String.append_assoc]

/-- C23: the generated block is the fragments section, the containers
section, the external processes section, then the lines
`allow_properties_access`, `allow_dump_stacks`, `allow_runtime_logging`,
`allow_environment_variable_dropping`, `allow_unencrypted_scratch` in that
order, each with `true` or `false` from the field of the same name. -/
theorem objects_sections_then_toggles (p : securityPolicyInternal) :
    p.objects =
      addFragments "" p.Fragments ++ addContainers "" p.Containers ++
        addExternalProcesses "" p.ExternalProcesses ++
        strings.concat
          (["allow_properties_access := " ++
              (if p.AllowPropertiesAccess then "true" else "false"),
            "allow_dump_stacks := " ++ (if p.AllowDumpStacks then "true" else "false"),
            "allow_runtime_logging := " ++ (if p.AllowRuntimeLogging then "true" else "false"),
            "allow_environment_variable_dropping := " ++
              (if p.AllowEnvironmentVariableDropping then "true" else "false"),
            "allow_unencrypted_scratch := " ++
              (if p.AllowUnencryptedScratch then "true" else "false")].map
            (fun line => line ++ "\n")) := by
  rw [objects_eq]
  simp only [List.map, strings.concat, String.append_assoc, String.append_empty]

/-- C27: each of `addFragments`, `addContainers` and `addExternalProcesses`
leaves the builder as it is for an empty list, and the block of a policy
without fragments, containers and external processes is the five toggle
lines. -/
theorem empty_sections (builder : String) (b1 b2 b3 b4 b5 : Bool) :
    addFragments builder [] = builder ∧
      addContainers builder [] = builder ∧
      addExternalProcesses builder [] = builder ∧
      securityPolicyInternal.objects
          { Containers := [], ExternalProcesses := [], Fragments := [],
            AllowPropertiesAccess := b1, AllowDumpStacks := b2, AllowRuntimeLogging := b3,
            AllowEnvironmentVariableDropping := b4, AllowUnencryptedScratch := b5 } =
        "allow_properties_access := " ++ (if b1 then "true" else "false") ++ "\n" ++
          "allow_dump_stacks := " ++ (if b2 then "true" else "false") ++ "\n" ++
          "allow_runtime_logging := " ++ (if b3 then "true" else "false") ++ "\n" ++
          "allow_environment_variable_dropping := " ++ (if b4 then "true" else "false") ++ "\n" ++
          "allow_unencrypted_scratch := " ++ (if b5 then "true" else "false") ++ "\n" := by
  refine ⟨rfl, rfl, rfl, ?_⟩
  rw [objects_eq]
  have h1 : addFragments "" [] = "" := rfl
  have h2 : addContainers "" [] = "" := rfl
  have h3 : addExternalProcesses "" [] = "" := rfl
  simp only [h1, h2, h3, String.empty_append, String.append_assoc]

/-- C28: the document of a fragment is `package`, the namespace, an empty
line, `svn := `, the SVN between double quotes, an empty line, then the
fragments, containers and external processes sections; nothing else is
written. For every policy with the same three lists the generated block is
these same sections followed by the five toggle lines. -/
theorem fragment_marshalRego_sections (p : securityPolicyFragment) (b1 b2 b3 b4 b5 : Bool) :
    p.marshalRego =
        "package " ++ p.Namespace ++ "\n\n" ++ "svn := \"" ++ p.SVN ++ "\"\n\n" ++
          (addFragments "" p.Fragments ++ addContainers "" p.Containers ++
            addExternalProcesses "" p.ExternalProcesses) ∧
      securityPolicyInternal.objects
          { Containers := p.Containers, ExternalProcesses := p.ExternalProcesses,
            Fragments := p.Fragments, AllowPropertiesAccess := b1, AllowDumpStacks := b2,
            AllowRuntimeLogging := b3, AllowEnvironmentVariableDropping := b4,
            AllowUnencryptedScratch := b5 } =
        (addFragments "" p.Fragments ++ addContainers "" p.Containers ++
            addExternalProcesses "" p.ExternalProcesses) ++
          ("allow_properties_access := " ++ (if b1 then "true" else "false") ++ "\n" ++
            "allow_dump_stacks := " ++ (if b2 then "true" else "false") ++ "\n" ++
            "allow_runtime_logging := " ++ (if b3 then "true" else "false") ++ "\n" ++
            "allow_environment_variable_dropping := " ++ (if b4 then "true" else "false") ++
            "\n" ++
            "allow_unencrypted_scratch := " ++ (if b5 then "true" else "false") ++ "\n") := by
  constructor
  · have hs : ∀ a b c : String,
        fmt.Sprintf "package %s\n\nsvn := \"%s\"\n\n%s" [.string a, .string b, .string c] =
          "package " ++ a ++ "\n\n" ++ "svn := \"" ++ b ++ "\"\n\n" ++ c := by
      intro a b c
      apply String.ext
      simp [fmt.Sprintf, fmt.sprintfChars, fmt.formatArg, String.data_append]
    simp only [securityPolicyFragment.marshalRego, hs]
    rw [addExternalProcesses_builder, addContainers_builder]
  · rw [objects_eq]
    simp only [String.append_assoc]

/-- C29: the `json` encoding reads `allowAll` and the containers only: two
calls that agree on them return the same result whatever the external
processes, fragments and toggles are, and with `allowAll = true` and no
containers the result is the encoding of the open-door policy. -/
theorem MarshalPolicy_json_reads_two_arguments (pkg : Package) (allowAll : Bool)
    (containers : List Container) (externalProcesses externalProcesses2 : List ExternalProcessConfig)
    (fragments fragments2 : List FragmentConfig) (b1 b2 b3 b4 b5 c1 c2 c3 c4 c5 : Bool)
    (compiles : String → Bool) :
    MarshalPolicy pkg "json" allowAll containers externalProcesses fragments b1 b2 b3 b4 b5 =
        MarshalPolicy pkg "json" allowAll containers externalProcesses2 fragments2
          c1 c2 c3 c4 c5 ∧
      MarshalPolicy pkg "json" true [] externalProcesses fragments b1 b2 b3 b4 b5 =
        ((json.Marshal pkg.NewOpenDoorPolicy).1, none) ∧
      MarshalPolicy (spec.package compiles "" "") "json" true [] externalProcesses fragments
          b1 b2 b3 b4 b5 =
        ("\x7b\"allow_all\":true,\"containers\":\x7b\"length\":0,\"elements\":null\x7d\x7d",
          none) := by
  have h : ∀ (q : Package) (a : Bool) (cs : List Container)
      (es : List ExternalProcessConfig) (fs : List FragmentConfig) (d1 d2 d3 d4 d5 : Bool),
      MarshalPolicy q "json" a cs es fs d1 d2 d3 d4 d5 =
        marshalJSON q a cs es fs d1 d2 d3 d4 d5 := by
    intro q a cs es fs d1 d2 d3 d4 d5
    rw [MarshalPolicy_eq]
    simp
  refine ⟨?_, ?_, ?_⟩
  · rw [h, h, marshalJSON_eq, marshalJSON_eq]
  · rw [h, marshalJSON_eq]
    simp
  · rw [h, marshalJSON_eq]
    simp only [spec.package]
    decide

/-! ## Lines end with a newline -/

/-- A text that ends with a newline still does after a text is put in front. -/
theorem getLast_append_newline (s t : String) (h : t.data.getLast? = some '\n') :
    (s ++ t).data.getLast? = some '\n' := by
  rw [String.data_append, List.getLast?_append, h]
  rfl

/-- C31: `writeLine` returns what was already written, then the formatted
text, then one newline: the builder's earlier text is a prefix of the result
and the result ends with a newline. Hence the block generated for a policy is
not empty and ends with a newline. -/
theorem writeLine_appends_line (builder format : String) (args : List fmt.Arg)
    (p : securityPolicyInternal) :
    writeLine builder format args = builder ++ fmt.Sprintf format args ++ "\n" ∧
      (writeLine builder format args).data =
        builder.data ++ ((fmt.Sprintf format args).data ++ ['\n']) ∧
      builder.data <+: (writeLine builder format args).data ∧
      (writeLine builder format args).data.getLast? = some '\n' ∧
      p.objects ≠ "" ∧
      p.objects.data.getLast? = some '\n' := by
  have hd : (writeLine builder format args).data =
      builder.data ++ ((fmt.Sprintf format args).data ++ ['\n']) := by
    rw [writeLine_eq]
    simp [String.data_append]
  have hlast : p.objects.data.getLast? = some '\n' := by
    rw [objects_eq]
    repeat apply getLast_append_newline
    rfl
  refine ⟨?_, hd, ?_, ?_, ?_, hlast⟩
  · rw [writeLine_eq, String.append_assoc]
  · rw [hd]
    exact List.prefix_append _ _
  · rw [hd, ← List.append_assoc]
    simp
  · intro h
    rw [h] at hlast
    simp at hlast

end securitypolicy

namespace cosesign1

/-- The order of parsed SVNs is the lexicographic order of the sequences. -/
theorem svnBelow_iff_lex (a b : List Nat) :
    svnBelow a b = true ↔ List.Lex (fun x y => x < y) a b := by
  induction a generalizing b with
  | nil =>
    cases b with
    | nil => simp [svnBelow]
    | cons y ys => simp [svnBelow, List.Lex.nil]
  | cons x xs ih =>
    cases b with
    | nil => simp [svnBelow]
    | cons y ys =>
      simp only [svnBelow, Bool.or_eq_true, decide_eq_true_eq, Bool.and_eq_true, beq_iff_eq, ih]
      constructor
      · rintro (h | ⟨h, hl⟩)
        · exact List.Lex.rel h
        · subst h
          exact List.Lex.cons hl
      · intro h
        cases h with
        | cons hl => exact Or.inr ⟨rfl, hl⟩
        | rel hr => exact Or.inl hr

/-- C22: in the model of the spec, SVNs are compared as sequences of numbers,
lexicographically by component: `2.9.9` is below `2.10.0` (as text it is not)
and `1.0` is below `1.0.1`. With issuer and feed matching, `authorize` fails
with `SVNTooLow` when the declared SVN is below the required minimum and
accepts the fragment when it is equal or above. -/
theorem authorize_svn_gate (declared : UnpackedDocument → Declaration)
    (document : UnpackedDocument) (expectedIssuer expectedFeed requiredMinimumSVN : String)
    (svn minimum : List Nat) (hi : document.issuer = expectedIssuer)
    (hf : document.feed = expectedFeed)
    (hs : parseSVN (declared document).svn = some svn)
    (hm : parseSVN requiredMinimumSVN = some minimum) :
    (List.Lex (fun x y => x < y) svn minimum →
        authorize declared document expectedIssuer expectedFeed requiredMinimumSVN =
          .error .SVNTooLow) ∧
      (¬ List.Lex (fun x y => x < y) svn minimum →
        authorize declared document expectedIssuer expectedFeed requiredMinimumSVN =
          .ok { issuer := document.issuer, feed := document.feed,
                minimumSVN := requiredMinimumSVN, includes := (declared document).includes }) ∧
      (parseSVN "2.9.9" = some [2, 9, 9] ∧ parseSVN "2.10.0" = some [2, 10, 0] ∧
        svnBelow [2, 9, 9] [2, 10, 0] = true ∧ ¬ ("2.9.9".data < "2.10.0".data)) ∧
      (parseSVN "1.0" = some [1, 0] ∧ parseSVN "1.0.1" = some [1, 0, 1] ∧
        svnBelow [1, 0] [1, 0, 1] = true) := by
  refine ⟨fun h => ?_, fun h => ?_, by decide, by decide⟩
  · have hb : svnBelow svn minimum = true := (svnBelow_iff_lex svn minimum).mpr h
    simp [authorize, hi, hf, hs, hm, hb]
  · have hb : svnBelow svn minimum = false := by
      cases hsb : svnBelow svn minimum with
      | false => rfl
      | true => exact absurd ((svnBelow_iff_lex svn minimum).mp hsb) h
    simp [authorize, hi, hf, hs, hm, hb]

/-- Witness of C22: a fragment declaring `2.9.9` against the minimum `2.10.0`
is rejected, one declaring `2.10.0` against the minimum `2.9.9` is accepted. -/
theorem authorize_svn_gate_witness :
    authorize (fun _ => { svn := "2.9.9", includes := ["containers"] }) sampleDocument
        "TestIssuer" "TestFeed" "2.10.0" = .error .SVNTooLow ∧
      authorize (fun _ => { svn := "2.10.0", includes := ["containers"] }) sampleDocument
        "TestIssuer" "TestFeed" "2.9.9" =
          .ok { issuer := "TestIssuer", feed := "TestFeed", minimumSVN := "2.9.9",
                includes := ["containers"] } :=
  ⟨(authorize_svn_gate (fun _ => { svn := "2.9.9", includes := ["containers"] }) sampleDocument
      "TestIssuer" "TestFeed" "2.10.0" [2, 9, 9] [2, 10, 0] rfl rfl (by decide) (by decide)).1
      ((svnBelow_iff_lex [2, 9, 9] [2, 10, 0]).mp (by decide)),
    (authorize_svn_gate (fun _ => { svn := "2.10.0", includes := ["containers"] }) sampleDocument
      "TestIssuer" "TestFeed" "2.9.9" [2, 10, 0] [2, 9, 9] rfl rfl (by decide) (by decide)).2.1
      (fun h => absurd ((svnBelow_iff_lex [2, 10, 0] [2, 9, 9]).mpr h) (by decide))⟩

end cosesign1
